import Mathlib

/-!
# Grid-trader: a shallow embedding of the core engine in Lean 4

This file embeds, over exact rational arithmetic, the core logic of the
grid-trading engine:

* `grid_trader/engine/risk_manager.py` — `RiskManager.calculate_lot_size`;
* `grid_trader/engine/order_manager.py` — the `Order` record and the
  simulation-mode (`mt5_connector = None`) operations `place_new_order`,
  `cancel_order`, `modify_order_sl_tp`, `check_pending_orders`,
  `check_active_positions`, `needs_regeneration`,
  `get_order_details_for_regeneration`;
* `grid_trader/engine/grid_manager.py` — the regeneration orchestration of
  `_handle_regenerations`, as a reachability relation;
* `grid_trader/models/volatility_grid.py`, `static_grid.py`,
  `pyramid_grid.py` — `generate_grid_orders`;
* `grid_trader/engine/signal_router.py` — `evaluate_trend` and the
  decision tree of `select_grid_model`.

Modelling conventions:

* Python floats become `ℚ`; Python's builtin `round(x, n)` (documented
  banker's rounding, i.e. round half to even) becomes `roundPy`.
* The injected collaborators (risk manager in the strategy models, symbol
  configuration lookups) are passed as explicit function/value parameters.
* Wall-clock timestamps (`creation_time`, `fill_time`, `close_time`,
  cooldown timers) and logging are dropped: no modelled behaviour reads
  them.  The broker-connected branch (`mt5_connector` present) is out of
  scope; everything below is the simulated path.
-/

namespace GridTrader

/-! ## Python `round` over ℚ (round half to even) -/
/-- Round a rational to an integer, halves to the even neighbour.  This is
the documented behaviour of Python's builtin `round`. -/
def roundHalfEven (x : ℚ) : ℤ :=
  if x - (⌊x⌋ : ℚ) < 1/2 then ⌊x⌋
  else if 1/2 < x - (⌊x⌋ : ℚ) then ⌊x⌋ + 1
  else if ⌊x⌋ % 2 = 0 then ⌊x⌋ else ⌊x⌋ + 1

/-- Python's `round(x, n)` for `n ≥ 0` decimal digits, over ℚ. -/
def roundPy (x : ℚ) (n : ℕ) : ℚ :=
  (roundHalfEven (x * 10 ^ n) : ℚ) / 10 ^ n

/-! ## Symbol-name predicates

`calculate_lot_size` inspects the symbol string: `"JPY" in symbol.upper()`,
`any(sub in symbol.upper() for sub in ["XAU", "XAG", "OIL", "IDX"])`,
`"USD" == symbol[:3].upper()` and `"USD" == symbol[-3:].upper()`. -/
/-- `hasSub sub l` decides whether `sub` occurs as a contiguous sublist of
`l` (Python's `in` on strings, after `toList`). -/
def hasSub (sub : List Char) : List Char → Bool
  | [] => sub.isEmpty
  | c :: t => sub.isPrefixOf (c :: t) || hasSub sub t

/-- Python `pat in symbol.upper()` (per-character ASCII upper-casing). -/
def symContains (symbol pat : String) : Bool :=
  hasSub pat.toList (symbol.toList.map Char.toUpper)

/-- Python `"USD" == symbol[:3].upper()`. -/
def firstThreeIsUSD (symbol : String) : Bool :=
  (symbol.toList.take 3).map Char.toUpper == "USD".toList

/-- Python `"USD" == symbol[-3:].upper()`. -/
def lastThreeIsUSD (symbol : String) : Bool :=
  (symbol.toList.drop (symbol.toList.length - 3)).map Char.toUpper == "USD".toList

/-! ## Risk manager: `RiskManager.calculate_lot_size`

From `grid_trader/engine/risk_manager.py`.  The per-symbol configuration
(`get_symbol_config`) is passed in as a record; the account state
(`leverage_ratio`, `account_balance`) and the risk policy
(`max_account_risk_percentage`) are explicit arguments.  Sub-expressions
keep the local-variable names of the source. -/
/-- The per-symbol configuration dictionary required by
`RiskManager.calculate_lot_size` (see `get_symbol_config`'s
`required_keys` plus the two optional boolean flags it reads). -/
structure SymbolCfg where
  pip_value_per_lot : ℚ
  min_lot_size : ℚ
  lot_step : ℚ
  decimals : ℕ
  point_value : ℚ
  contract_size : ℚ
  is_cfd_or_metal : Bool
  base_currency_is_account_currency : Bool
deriving DecidableEq

/-- `sl_distance_abs = abs(round(entry_price - sl_price, decimals + 2 if
decimals < 7 else 7))`. -/
def sl_distance_abs (cfg : SymbolCfg) (entry_price sl_price : ℚ) : ℚ :=
  |roundPy (entry_price - sl_price) (if cfg.decimals < 7 then cfg.decimals + 2 else 7)|

/-- The symbol-class pip-unit heuristic: JPY pairs use
`10**(-(decimals-1))` (or `0.01` when `decimals = 0`), metals/CFDs use the
raw point, all others `point * 10`. -/
def standard_pip_unit (cfg : SymbolCfg) (symbol : String) : ℚ :=
  if symContains symbol "JPY" then
    (if 1 ≤ cfg.decimals then 1 / 10 ^ (cfg.decimals - 1) else 1/100)
  else if cfg.is_cfd_or_metal || symContains symbol "XAU" || symContains symbol "XAG"
      || symContains symbol "OIL" || symContains symbol "IDX" then
    cfg.point_value
  else cfg.point_value * 10

/-- `sl_pips = sl_distance_abs / standard_pip_unit`. -/
def sl_pips (cfg : SymbolCfg) (symbol : String) (entry_price sl_price : ℚ) : ℚ :=
  sl_distance_abs cfg entry_price sl_price / standard_pip_unit cfg symbol

/-- `value_at_risk_per_lot = sl_pips * pip_value_per_lot`. -/
def value_at_risk_per_lot (cfg : SymbolCfg) (symbol : String) (entry_price sl_price : ℚ) : ℚ :=
  sl_pips cfg symbol entry_price sl_price * cfg.pip_value_per_lot

/-- `raw_lot_size = risk_amount_usd / value_at_risk_per_lot`. -/
def raw_lot_size (cfg : SymbolCfg) (symbol : String)
    (entry_price sl_price risk_amount_usd : ℚ) : ℚ :=
  risk_amount_usd / value_at_risk_per_lot cfg symbol entry_price sl_price

/-- `stepped_lot_size = floor(raw / lot_step) * lot_step` when
`lot_step > 0`, else the raw size. -/
def stepped_lot_size (cfg : SymbolCfg) (symbol : String)
    (entry_price sl_price risk_amount_usd : ℚ) : ℚ :=
  if 0 < cfg.lot_step then
    (⌊raw_lot_size cfg symbol entry_price sl_price risk_amount_usd / cfg.lot_step⌋ : ℚ)
      * cfg.lot_step
  else raw_lot_size cfg symbol entry_price sl_price risk_amount_usd

/-- `final_lot_size`, after the min-lot promotion: valid on the path where
the `raw_lot_size < min_lot` rejection did not fire. -/
def final_lot_size (cfg : SymbolCfg) (symbol : String)
    (entry_price sl_price risk_amount_usd : ℚ) : ℚ :=
  if stepped_lot_size cfg symbol entry_price sl_price risk_amount_usd < cfg.min_lot_size
  then cfg.min_lot_size
  else stepped_lot_size cfg symbol entry_price sl_price risk_amount_usd

/-- `position_nominal_value_usd`: nominal value `lots * contract_size`
converted toward the account currency by the base/quote heuristic (cross
pairs are left unconverted, with a logged caveat in the source). -/
def position_nominal_value_usd (cfg : SymbolCfg) (symbol : String)
    (entry_price lots : ℚ) : ℚ :=
  if cfg.base_currency_is_account_currency then lots * cfg.contract_size
  else if firstThreeIsUSD symbol then lots * cfg.contract_size
  else if lastThreeIsUSD symbol then lots * cfg.contract_size * entry_price
  else lots * cfg.contract_size

/-- `required_margin = position_nominal_value_usd / leverage_ratio`. -/
def required_margin (cfg : SymbolCfg) (symbol : String)
    (leverage_ratio entry_price lots : ℚ) : ℚ :=
  position_nominal_value_usd cfg symbol entry_price lots / leverage_ratio

/-- Python `int(-math.log10(lot_step))` for `0 < lot_step < 1`; for
`lot_step ≥ 1` the source computes `abs(log10(lot_step)).is_integer()`, a
bool that survives the later `isinstance(…, int)` check (bool is an int in
Python), so powers of ten give precision 1 and other steps 0; a
non-positive step gives 2. -/
def final_lot_precision (lot_step : ℚ) : ℕ :=
  if 0 < lot_step ∧ lot_step < 1 then Nat.log 10 (Int.toNat ⌊(1 : ℚ) / lot_step⌋)
  else if 0 < lot_step then
    (if lot_step.den == 1 && decide (1 ≤ lot_step.num)
        && (10 : ℤ) ^ Nat.log 10 lot_step.num.toNat == lot_step.num then 1 else 0)
  else 2

/-- `RiskManager.calculate_lot_size` (simulation path; the symbol
configuration is resolved to `cfg`).  The `max_account_risk_percentage`
policy comparison on the source's lines 139–141 only emits a warning, so it
binds no behaviour here. -/
def calculate_lot_size (cfg : SymbolCfg) (symbol : String)
    (leverage_ratio max_account_risk_percentage balance : ℚ)
    (entry_price sl_price risk_amount_usd : ℚ) : ℚ :=
  if entry_price = sl_price then 0
  else if risk_amount_usd ≤ 0 then 0
  else if sl_distance_abs cfg entry_price sl_price < cfg.point_value / 2 then 0
  else if sl_pips cfg symbol entry_price sl_price ≤ 0 then 0
  else if value_at_risk_per_lot cfg symbol entry_price sl_price ≤ 0 then 0
  else if stepped_lot_size cfg symbol entry_price sl_price risk_amount_usd < cfg.min_lot_size
        ∧ raw_lot_size cfg symbol entry_price sl_price risk_amount_usd < cfg.min_lot_size
    then 0
  else if balance <
      required_margin cfg symbol leverage_ratio entry_price
        (final_lot_size cfg symbol entry_price sl_price risk_amount_usd) then 0
  else if (1/2) * balance <
      required_margin cfg symbol leverage_ratio entry_price
        (final_lot_size cfg symbol entry_price sl_price risk_amount_usd) then 0
  else roundPy (final_lot_size cfg symbol entry_price sl_price risk_amount_usd)
        (final_lot_precision cfg.lot_step)

/-- A symbol configuration matching the source's static EURUSD settings
(with the MT5-merged fields a live run would add). -/
def eurusdCfg : SymbolCfg :=
  { pip_value_per_lot := 10, min_lot_size := 1/100, lot_step := 1/100,
    decimals := 5, point_value := 1/100000, contract_size := 100000,
    is_cfd_or_metal := false, base_currency_is_account_currency := false }

/-! ## Order manager: data model

From `grid_trader/engine/order_manager.py`, simulation mode
(`mt5_connector = None`).  Wall-clock fields (`creation_time`,
`fill_time`, `close_time`), `pnl` and `broker_order_id` are dropped: no
modelled behaviour reads them.  Order ids (`uuid4` in the source) become
naturals drawn from a fresh-id counter. -/
inductive OrderStatus where
  | PENDING | ACTIVE | CANCELLED | FILLED | STOPPED_OUT | TP_HIT | CLOSED
deriving DecidableEq

inductive OrderType where
  | MARKET_BUY | MARKET_SELL | BUY_LIMIT | SELL_LIMIT | BUY_STOP | SELL_STOP
deriving DecidableEq

/-- The buy-side order kinds of `check_active_positions` (line 260). -/
def OrderType.isBuySide : OrderType → Bool
  | .BUY_LIMIT | .BUY_STOP | .MARKET_BUY => true
  | _ => false

/-- The sell-side order kinds of `check_active_positions` (line 263). -/
def OrderType.isSellSide : OrderType → Bool
  | .SELL_LIMIT | .SELL_STOP | .MARKET_SELL => true
  | _ => false

/-- The buy-type pending kinds validated at lines 93–95. -/
def OrderType.isBuyPending : OrderType → Bool
  | .BUY_LIMIT | .BUY_STOP => true
  | _ => false

/-- The sell-type pending kinds validated at lines 96–98. -/
def OrderType.isSellPending : OrderType → Bool
  | .SELL_LIMIT | .SELL_STOP => true
  | _ => false

/-- The `Order` record. -/
structure Order where
  orderId : ℕ
  symbol : String
  orderType : OrderType
  entryPrice : ℚ
  slPrice : ℚ
  tpPrice : ℚ
  lotSize : ℚ
  status : OrderStatus
  gridId : Option String
  /-- the slot id: `original_order_id`, defaulting to the order's own id -/
  originalOrderId : ℕ
  fillPrice : Option ℚ
  closePrice : Option ℚ
  initialSlPrice : ℚ
  initialTpPrice : ℚ
  regenerationAttempts : ℕ
deriving DecidableEq

/-- One bar of market data for a symbol, `{high, low, close}`. -/
structure Bar where
  high : ℚ
  low : ℚ
  close : ℚ
deriving DecidableEq

/-- `current_market_data`: a mapping from symbol to its current bar. -/
abbrev MarketData := List (String × Bar)

def lookupBar (m : MarketData) (symbol : String) : Option Bar :=
  (m.find? (fun p => p.1 == symbol)).map (·.2)

/-- The `OrderManager` state: the order table, the pending/active id
lists, the per-slot regeneration counters and the configured maximum;
`nextId` models the uuid generator. -/
structure OMState where
  orders : List Order
  pendingOrders : List ℕ
  activePositions : List ℕ
  regenerationCounts : ℕ → ℕ
  maxRegenerationAttempts : ℕ
  nextId : ℕ

/-- A fresh `OrderManager` (constructor at lines 57–67). -/
def OMState.init (maxRegen : ℕ) : OMState :=
  { orders := [], pendingOrders := [], activePositions := [],
    regenerationCounts := fun _ => 0, maxRegenerationAttempts := maxRegen, nextId := 0 }

def findOrder (s : OMState) (oid : ℕ) : Option Order :=
  s.orders.find? (fun o => o.orderId == oid)

/-! ## `place_new_order` (lines 85–136, simulated path) -/
/-- `OrderManager.place_new_order`.  Returns the created order (`None` on
a validation failure, leaving the state untouched) together with the new
state.  The order-kind string has already been resolved to the enum; an
unknown kind string returns `None` before reaching any of this. -/
def place_new_order (s : OMState) (symbol : String) (orderType : OrderType)
    (entry_price sl_price tp_price lot_size : ℚ) (grid_id : Option String)
    (original_order_id_for_regen : Option ℕ) (is_regeneration : Bool) :
    Option Order × OMState :=
  if lot_size ≤ 0 then (none, s)
  else if orderType.isBuyPending ∧ entry_price ≤ sl_price then (none, s)
  else if orderType.isBuyPending ∧ tp_price ≠ 0 ∧ tp_price ≤ entry_price then (none, s)
  else if orderType.isSellPending ∧ sl_price ≤ entry_price then (none, s)
  else if orderType.isSellPending ∧ tp_price ≠ 0 ∧ entry_price ≤ tp_price then (none, s)
  else
    let oid := s.nextId
    let attempts : ℕ :=
      if is_regeneration then
        match original_order_id_for_regen with
        | some slot => s.regenerationCounts slot + 1
        | none => 0
      else 0
    let counts : ℕ → ℕ :=
      if is_regeneration then
        match original_order_id_for_regen with
        | some slot => Function.update s.regenerationCounts slot (s.regenerationCounts slot + 1)
        | none => s.regenerationCounts
      else s.regenerationCounts
    let order : Order :=
      { orderId := oid, symbol := symbol, orderType := orderType,
        entryPrice := entry_price, slPrice := sl_price, tpPrice := tp_price,
        lotSize := lot_size, status := .PENDING, gridId := grid_id,
        originalOrderId := original_order_id_for_regen.getD oid,
        fillPrice := none, closePrice := none,
        initialSlPrice := sl_price, initialTpPrice := tp_price,
        regenerationAttempts := attempts }
    (some order,
      { s with orders := s.orders ++ [order],
               pendingOrders := s.pendingOrders ++ [oid],
               regenerationCounts := counts,
               nextId := s.nextId + 1 })

/-! ## `cancel_order` and `modify_order_sl_tp` (lines 138–174) -/
def updateOrder (s : OMState) (oid : ℕ) (f : Order → Order) : List Order :=
  s.orders.map (fun o => if o.orderId == oid then f o else o)

/-- `OrderManager.cancel_order` (simulated path): permitted only while
`PENDING`; returns the success flag and the new state. -/
def cancel_order (s : OMState) (oid : ℕ) : Bool × OMState :=
  match findOrder s oid with
  | none => (false, s)
  | some o =>
    if o.status ≠ OrderStatus.PENDING then (false, s)
    else (true,
      { s with orders := updateOrder s oid (fun o2 => { o2 with status := .CANCELLED }),
               pendingOrders := s.pendingOrders.filter (fun x => x ≠ oid) })

/-- `OrderManager.modify_order_sl_tp` (simulated path): permitted while
`PENDING`, `ACTIVE` or `FILLED`; the new SL/TP are applied **without any
directional re-validation** (lines 170–173). -/
def modify_order_sl_tp (s : OMState) (oid : ℕ) (new_sl new_tp : Option ℚ) :
    Bool × OMState :=
  match findOrder s oid with
  | none => (false, s)
  | some o =>
    if o.status ∉ [OrderStatus.PENDING, OrderStatus.ACTIVE, OrderStatus.FILLED]
    then (false, s)
    else (true,
      { s with orders := updateOrder s oid (fun o2 =>
          { o2 with slPrice := new_sl.getD o2.slPrice, tpPrice := new_tp.getD o2.tpPrice }) })

/-! ## `check_pending_orders` (lines 228–246) -/
/-- The same-bar fill rule per kind (lines 238–241): the fill price never
betters the worst price seen beyond the entry. -/
def fillDecision (o : Order) (high low : ℚ) : Option ℚ :=
  match o.orderType with
  | .BUY_STOP => if high ≥ o.entryPrice
      then some (max o.entryPrice (if high > o.entryPrice then low else o.entryPrice))
      else none
  | .SELL_STOP => if low ≤ o.entryPrice
      then some (min o.entryPrice (if low < o.entryPrice then high else o.entryPrice))
      else none
  | .BUY_LIMIT => if low ≤ o.entryPrice
      then some (min o.entryPrice (if low < o.entryPrice then high else o.entryPrice))
      else none
  | .SELL_LIMIT => if high ≥ o.entryPrice
      then some (max o.entryPrice (if high > o.entryPrice then low else o.entryPrice))
      else none
  | _ => none

/-- Whether `check_pending_orders` fills pending order `oid` under `m`. -/
def fillFires (s : OMState) (m : MarketData) (oid : ℕ) : Bool :=
  match findOrder s oid with
  | none => false
  | some o =>
    match lookupBar m o.symbol with
    | none => false
    | some bar => (fillDecision o bar.high bar.low).isSome

/-- Per-order effect of `check_pending_orders` on the order table. -/
def applyFill (m : MarketData) (pending : List ℕ) (o : Order) : Order :=
  if o.orderId ∈ pending then
    match lookupBar m o.symbol with
    | none => o
    | some bar =>
      match fillDecision o bar.high bar.low with
      | some fp => { o with status := .FILLED, fillPrice := some fp }
      | none => o
  else o

/-- `OrderManager.check_pending_orders` (simulated path): fill every
pending order whose bar crosses its entry, move it from the pending list
to the active list, and return the filled ids. -/
def check_pending_orders (s : OMState) (m : MarketData) : OMState × List ℕ :=
  let filled := s.pendingOrders.filter (fun oid => fillFires s m oid)
  ({ s with orders := s.orders.map (applyFill m s.pendingOrders),
            pendingOrders := s.pendingOrders.filter (fun oid => ¬ fillFires s m oid),
            activePositions := s.activePositions ++ filled },
   filled)

/-! ## `check_active_positions` (lines 248–270) -/
/-- The close decision for one active order on one bar (lines 259–265):
the stop-loss test runs strictly **before** the take-profit test, for both
sides, so SL wins whenever both are crossable. -/
def closeDecision (o : Order) (high low : ℚ) : Option (OrderStatus × ℚ) :=
  if o.orderType.isBuySide then
    if o.slPrice ≠ 0 ∧ low ≤ o.slPrice then some (.STOPPED_OUT, o.slPrice)
    else if o.tpPrice ≠ 0 ∧ high ≥ o.tpPrice then some (.TP_HIT, o.tpPrice)
    else none
  else if o.orderType.isSellSide then
    if o.slPrice ≠ 0 ∧ high ≥ o.slPrice then some (.STOPPED_OUT, o.slPrice)
    else if o.tpPrice ≠ 0 ∧ low ≤ o.tpPrice then some (.TP_HIT, o.tpPrice)
    else none
  else none

/-- Whether `check_active_positions` closes order `oid` under `m` (orders
with no recorded fill price are skipped, line 254). -/
def closeFires (s : OMState) (m : MarketData) (oid : ℕ) : Bool :=
  match findOrder s oid with
  | none => false
  | some o =>
    o.fillPrice.isSome &&
      match lookupBar m o.symbol with
      | none => false
      | some bar => (closeDecision o bar.high bar.low).isSome

/-- Per-order effect of `check_active_positions` on the order table. -/
def applyClose (m : MarketData) (active : List ℕ) (o : Order) : Order :=
  if o.orderId ∈ active ∧ o.fillPrice.isSome then
    match lookupBar m o.symbol with
    | none => o
    | some bar =>
      match closeDecision o bar.high bar.low with
      | some (st, cp) => { o with status := st, closePrice := some cp }
      | none => o
  else o

/-- `OrderManager.check_active_positions` (simulated path): close every
active order whose bar crosses its SL or TP, remove it from the active
list, and return the closed ids. -/
def check_active_positions (s : OMState) (m : MarketData) : OMState × List ℕ :=
  let closed := s.activePositions.filter (fun oid => closeFires s m oid)
  ({ s with orders := s.orders.map (applyClose m s.activePositions),
            activePositions := s.activePositions.filter (fun oid => ¬ closeFires s m oid) },
   closed)

/-! ## Regeneration eligibility and details (lines 272–297) -/
/-- `OrderManager.needs_regeneration`. -/
def needs_regeneration (s : OMState) (oid : ℕ) : Bool :=
  match findOrder s oid with
  | none => false
  | some o =>
    if o.status ≠ OrderStatus.STOPPED_OUT then false
    else if s.regenerationCounts o.originalOrderId ≥ s.maxRegenerationAttempts then false
    else true

/-- The order specification assembled by
`OrderManager.get_order_details_for_regeneration`. -/
structure RegenSpec where
  symbol : String
  orderType : OrderType
  entry_price : ℚ
  sl_price : ℚ
  tp_price : ℚ
  lot_size : ℚ
  grid_id : Option String
  original_order_id_for_regen : ℕ
deriving DecidableEq

/-- `OrderManager.get_order_details_for_regeneration`: reuse the stopped
order's entry, widen SL/TP proportionally from the pre-widening levels
when `widen_sltp_factor > 1` (a zero initial TP stays "no TP"), and keep
the slot id.  `decimals` is the symbol-config decimal precision the source
fetches from the risk manager. -/
def get_order_details_for_regeneration (s : OMState) (oid : ℕ)
    (widen_sltp_factor : Option ℚ) (decimals : ℕ) : Option RegenSpec :=
  match findOrder s oid with
  | none => none
  | some o =>
    if o.status ≠ OrderStatus.STOPPED_OUT then none
    else
      let widened : ℚ × ℚ :=
        match widen_sltp_factor with
        | some f =>
          if f ≠ 0 ∧ 1 < f then
            let sl_dist := |o.entryPrice - o.initialSlPrice|
            let tp_dist := |o.initialTpPrice - o.entryPrice|
            if o.orderType.isBuyPending then
              (roundPy (o.entryPrice - sl_dist * f) decimals,
               if o.initialTpPrice ≠ 0 then roundPy (o.entryPrice + tp_dist * f) decimals
               else 0)
            else
              (roundPy (o.entryPrice + sl_dist * f) decimals,
               if o.initialTpPrice ≠ 0 then roundPy (o.entryPrice - tp_dist * f) decimals
               else 0)
          else (o.initialSlPrice, o.initialTpPrice)
        | none => (o.initialSlPrice, o.initialTpPrice)
      some { symbol := o.symbol, orderType := o.orderType,
             entry_price := o.entryPrice, sl_price := widened.1, tp_price := widened.2,
             lot_size := o.lotSize, grid_id := o.gridId,
             original_order_id_for_regen := o.originalOrderId }

/-! ## Reachable order-manager states

`ReachableOM` closes the initial state under the order-manager operations
named by the spec: placement, fill/close checks, cancellation, and SL/TP
modification.  `ReachableOMCore` is the same relation without the SL/TP
modification step. -/
/-- The §3 directional-consistency invariant on one order record. -/
def specConsistent (o : Order) : Prop :=
  (o.orderType.isBuyPending = true →
    o.slPrice < o.entryPrice ∧ (o.tpPrice = 0 ∨ o.entryPrice < o.tpPrice))
  ∧ (o.orderType.isSellPending = true →
    o.entryPrice < o.slPrice ∧ (o.tpPrice = 0 ∨ o.tpPrice < o.entryPrice))

instance (o : Order) : Decidable (specConsistent o) := by
  unfold specConsistent; infer_instance

inductive ReachableOM : OMState → Prop where
  | init (maxRegen : ℕ) : ReachableOM (OMState.init maxRegen)
  | place (s : OMState) (symbol : String) (t : OrderType) (entry sl tp lot : ℚ)
      (g : Option String) (orig : Option ℕ) (regen : Bool) : ReachableOM s →
      ReachableOM (place_new_order s symbol t entry sl tp lot g orig regen).2
  | fills (s : OMState) (m : MarketData) : ReachableOM s →
      ReachableOM (check_pending_orders s m).1
  | closes (s : OMState) (m : MarketData) : ReachableOM s →
      ReachableOM (check_active_positions s m).1
  | cancel (s : OMState) (oid : ℕ) : ReachableOM s →
      ReachableOM (cancel_order s oid).2
  | modify (s : OMState) (oid : ℕ) (newSl newTp : Option ℚ) : ReachableOM s →
      ReachableOM (modify_order_sl_tp s oid newSl newTp).2

inductive ReachableOMCore : OMState → Prop where
  | init (maxRegen : ℕ) : ReachableOMCore (OMState.init maxRegen)
  | place (s : OMState) (symbol : String) (t : OrderType) (entry sl tp lot : ℚ)
      (g : Option String) (orig : Option ℕ) (regen : Bool) : ReachableOMCore s →
      ReachableOMCore (place_new_order s symbol t entry sl tp lot g orig regen).2
  | fills (s : OMState) (m : MarketData) : ReachableOMCore s →
      ReachableOMCore (check_pending_orders s m).1
  | closes (s : OMState) (m : MarketData) : ReachableOMCore s →
      ReachableOMCore (check_active_positions s m).1
  | cancel (s : OMState) (oid : ℕ) : ReachableOMCore s →
      ReachableOMCore (cancel_order s oid).2

/-! ## Reachable grid-manager orchestration states

`ReachableGM` models the Grid Manager's use of the Order Manager
(`create_new_grid` and `process_market_data_update` /
`_handle_regenerations` in `grid_trader/engine/grid_manager.py`): initial
placements are never regenerations, and a regeneration placement happens
only after `needs_regeneration` returned true for a stopped-out order,
with the spec assembled by `get_order_details_for_regeneration` and a
fresh lot size from the risk manager (quantified here, as is the
attempt-indexed widening factor).  Cooldown skips, inactive-grid skips
and risk-manager rejections simply do not take the step. -/
inductive ReachableGM : OMState → Prop where
  | init (maxRegen : ℕ) : ReachableGM (OMState.init maxRegen)
  | place (s : OMState) (symbol : String) (t : OrderType) (entry sl tp lot : ℚ)
      (g : Option String) (orig : Option ℕ) : ReachableGM s →
      ReachableGM (place_new_order s symbol t entry sl tp lot g orig false).2
  | fills (s : OMState) (m : MarketData) : ReachableGM s →
      ReachableGM (check_pending_orders s m).1
  | closes (s : OMState) (m : MarketData) : ReachableGM s →
      ReachableGM (check_active_positions s m).1
  | regen (s : OMState) (oid : ℕ) (factor : Option ℚ) (decimals : ℕ) (rp : RegenSpec)
      (lot : ℚ) : ReachableGM s →
      needs_regeneration s oid = true →
      get_order_details_for_regeneration s oid factor decimals = some rp →
      ReachableGM (place_new_order s rp.symbol rp.orderType rp.entry_price rp.sl_price
        rp.tp_price lot rp.grid_id (some rp.original_order_id_for_regen) true).2

/-- Slot counters never exceed the configured maximum. -/
def slotCountsBounded (s : OMState) : Prop :=
  ∀ slot, s.regenerationCounts slot ≤ s.maxRegenerationAttempts

/-- Well-formed order table: distinct ids, all below the uuid counter. -/
def idsWF (s : OMState) : Prop :=
  (s.orders.map (fun o => o.orderId)).Nodup ∧ ∀ o ∈ s.orders, o.orderId < s.nextId

/-- The single order placed in the C6 counterexample run. -/
def c6Order : Order :=
  { orderId := 0, symbol := "EURUSD", orderType := .BUY_LIMIT, entryPrice := 2,
    slPrice := 1, tpPrice := 3, lotSize := 1, status := .PENDING, gridId := none,
    originalOrderId := 0, fillPrice := none, closePrice := none,
    initialSlPrice := 1, initialTpPrice := 3, regenerationAttempts := 0 }

/-- The order manager state after the C6 counterexample's placement. -/
def c6State1 : OMState :=
  { orders := [c6Order], pendingOrders := [0], activePositions := [],
    regenerationCounts := fun _ => 0, maxRegenerationAttempts := 3, nextId := 1 }

/-- The invariant-violating order after the SL modification. -/
def c6BadOrder : Order := { c6Order with slPrice := 5 }

/-- The order manager state after the C6 counterexample's modification. -/
def c6State2 : OMState :=
  { orders := [c6BadOrder], pendingOrders := [0], activePositions := [],
    regenerationCounts := fun _ => 0, maxRegenerationAttempts := 3, nextId := 1 }

/-! ## Grid strategies

From `grid_trader/models/`.  Construction validation is
`BaseGridModel.__init__` (truthiness of symbol/direction/base price/base
stop/ATR, then direction ∈ {buy, sell}); `_calculate_lot_size` delegates
to the injected risk-manager collaborator, modelled as a function
`lotFor : entry → sl → lots`; the decimal precision resolved by
`_get_decimals` (symbol config / string heuristic) is passed as a
parameter. -/
/-- Python `s.lower() == t` (per-character ASCII lower-casing). -/
def lowerEq (s t : String) : Bool :=
  (s.toList.map Char.toLower) == t.toList

/-- `base_trade_params`, with the keys every model reads. -/
structure BaseTradeParams where
  symbol : String
  direction : String
  base_price : ℚ
  base_sl : ℚ
  base_tp : ℚ
  base_size_lots : ℚ
  atr : ℚ
deriving DecidableEq

/-- `BaseGridModel.__init__`'s validation: `all([symbol, direction,
base_price, base_sl, atr])` by Python truthiness (an ATR of exactly 0 is
falsy and rejected), then `direction.lower() in ["buy", "sell"]`. -/
def baseParamsValid (p : BaseTradeParams) : Bool :=
  p.symbol != "" && p.direction != "" && !(p.base_price == 0) && !(p.base_sl == 0)
    && !(p.atr == 0) && (lowerEq p.direction "buy" || lowerEq p.direction "sell")

/-- One generated order specification (the dicts returned by
`generate_grid_orders`; the `order_type` string resolved to the enum). -/
structure OrderSpec where
  symbol : String
  order_type : OrderType
  entry_price : ℚ
  sl : ℚ
  tp : ℚ
  lot_size : ℚ
  grid_id : String
deriving DecidableEq

/-- The de-duplication key: `(order['order_type'], order['entry_price'])`. -/
def orderKey (o : OrderSpec) : OrderType × ℚ := (o.order_type, o.entry_price)

/-- The `unique_orders` / `seen_entries` pass shared by the volatility,
static, dual and range models: keep the first occurrence of each
`(order kind, entry price)` pair. -/
def dedupLoop : List OrderSpec → List (OrderType × ℚ) → List OrderSpec
  | [], _ => []
  | o :: rest, seen =>
    if orderKey o ∈ seen then dedupLoop rest seen
    else o :: dedupLoop rest (orderKey o :: seen)

def dedupOrders (l : List OrderSpec) : List OrderSpec := dedupLoop l []

/-! ### Volatility channel model (`volatility_grid.py`) -/
structure VolatilityGridModel where
  params : BaseTradeParams
  num_levels : ℕ
  atr_multiplier : ℚ
deriving DecidableEq

/-- Construction: base validation raises `ValueError` (here: `none`),
then `num_levels = int(max(1, num_levels))` and
`atr_multiplier = float(max(0.1, atr_multiplier))`. -/
def VolatilityGridModel.mk? (p : BaseTradeParams) (num_levels : ℤ)
    (atr_multiplier : ℚ) : Option VolatilityGridModel :=
  if baseParamsValid p then
    some { params := p, num_levels := (max 1 num_levels).toNat,
           atr_multiplier := max (1/10) atr_multiplier }
  else none

/-- One level of the volatility channel: a buy-stop above and a sell-stop
below, each kept only when its lot size is positive. -/
def volatilityLevel (m : VolatilityGridModel) (lotFor : ℚ → ℚ → ℚ) (decimals : ℕ)
    (spacing : ℚ) (i : ℕ) : List OrderSpec :=
  let price_offset := (i : ℚ) * spacing
  let entry_above := roundPy (m.params.base_price + price_offset) decimals
  let sl_above := roundPy (entry_above - spacing) decimals
  let tp_above := roundPy (entry_above + spacing) decimals
  let entry_below := roundPy (m.params.base_price - price_offset) decimals
  let sl_below := roundPy (entry_below + spacing) decimals
  let tp_below := roundPy (entry_below - spacing) decimals
  let lot_above := lotFor entry_above sl_above
  let lot_below := lotFor entry_below sl_below
  (if 0 < lot_above then
    [{ symbol := m.params.symbol, order_type := .BUY_STOP, entry_price := entry_above,
       sl := sl_above, tp := tp_above, lot_size := lot_above,
       grid_id := "VG_" ++ m.params.symbol ++ "_BUY_STOP_" ++ toString i }]
   else [])
  ++ (if 0 < lot_below then
    [{ symbol := m.params.symbol, order_type := .SELL_STOP, entry_price := entry_below,
       sl := sl_below, tp := tp_below, lot_size := lot_below,
       grid_id := "VG_" ++ m.params.symbol ++ "_SELL_STOP_" ++ toString i }]
   else [])

/-- `VolatilityGridModel.generate_grid_orders`: empty when ATR ≤ 0 or the
spacing is non-positive, else levels 1..N on both sides followed by the
de-duplication pass (which leaves the list unchanged when there is no
duplicate). -/
def volatilityGenerate (m : VolatilityGridModel) (lotFor : ℚ → ℚ → ℚ)
    (decimals : ℕ) : List OrderSpec :=
  if m.params.atr ≤ 0 then []
  else
    let spacing := m.params.atr * m.atr_multiplier
    if spacing ≤ 0 then []
    else
      dedupOrders (((List.range m.num_levels).map (fun k => k + 1)).flatMap
        (volatilityLevel m lotFor decimals spacing))

/-! ### Static ladder model (`static_grid.py`) -/
structure StaticGridModel where
  params : BaseTradeParams
  num_grid_lines : ℕ
  use_base_tp_for_all : Bool
  individual_tp_rr_ratio : ℚ
deriving DecidableEq

/-- Construction: base validation, parameter clamping, then the up-front
positioning check (buy needs base price > base SL; sell the reverse). -/
def StaticGridModel.mk? (p : BaseTradeParams) (num_grid_lines : ℤ)
    (use_base_tp_for_all : Bool) (individual_tp_rr_ratio : ℚ) :
    Option StaticGridModel :=
  if baseParamsValid p then
    if (lowerEq p.direction "buy" ∧ p.base_price ≤ p.base_sl)
        ∨ (lowerEq p.direction "sell" ∧ p.base_sl ≤ p.base_price) then none
    else
      some { params := p, num_grid_lines := (max 1 num_grid_lines).toNat,
             use_base_tp_for_all := use_base_tp_for_all,
             individual_tp_rr_ratio := max (1/10) individual_tp_rr_ratio }
  else none

/-- One rung of the static ladder (skipped when the entry leaves the
(base SL, base price) band or the TP is not beyond the entry, or the lot
size is non-positive). -/
def staticLevel (m : StaticGridModel) (lotFor : ℚ → ℚ → ℚ) (decimals : ℕ)
    (spacing : ℚ) (i : ℕ) : List OrderSpec :=
  let price_offset := (i : ℚ) * spacing
  let order_sl := m.params.base_sl
  if lowerEq m.params.direction "buy" then
    let entry_price := roundPy (m.params.base_price - price_offset) decimals
    if entry_price ≤ m.params.base_sl then []
    else if m.params.base_price ≤ entry_price then []
    else
      let sl_distance := |entry_price - order_sl|
      let order_tp := if m.use_base_tp_for_all then m.params.base_tp
        else roundPy (entry_price + sl_distance * m.individual_tp_rr_ratio) decimals
      if order_tp ≤ entry_price then []
      else
        let lot_size := lotFor entry_price order_sl
        if 0 < lot_size then
          [{ symbol := m.params.symbol, order_type := .BUY_LIMIT,
             entry_price := entry_price, sl := order_sl, tp := order_tp,
             lot_size := lot_size,
             grid_id := "SG_" ++ m.params.symbol ++ "_BT_" ++ toString i }]
        else []
  else if lowerEq m.params.direction "sell" then
    let entry_price := roundPy (m.params.base_price + price_offset) decimals
    if m.params.base_sl ≤ entry_price then []
    else if entry_price ≤ m.params.base_price then []
    else
      let sl_distance := |entry_price - order_sl|
      let order_tp := if m.use_base_tp_for_all then m.params.base_tp
        else roundPy (entry_price - sl_distance * m.individual_tp_rr_ratio) decimals
      if entry_price ≤ order_tp then []
      else
        let lot_size := lotFor entry_price order_sl
        if 0 < lot_size then
          [{ symbol := m.params.symbol, order_type := .SELL_LIMIT,
             entry_price := entry_price, sl := order_sl, tp := order_tp,
             lot_size := lot_size,
             grid_id := "SG_" ++ m.params.symbol ++ "_ST_" ++ toString i }]
        else []
  else []

/-- `StaticGridModel.generate_grid_orders`: empty on a zero range or a
sub-half-pip spacing, else rungs 1..N followed by the de-duplication
pass. -/
def staticGenerate (m : StaticGridModel) (lotFor : ℚ → ℚ → ℚ)
    (decimals : ℕ) : List OrderSpec :=
  let total_range := |m.params.base_price - m.params.base_sl|
  if total_range ≤ 0 then []
  else
    let spacing := total_range / (m.num_grid_lines + 1)
    let min_pip_spacing : ℚ := 1 / 10 ^ decimals
    if spacing < min_pip_spacing / 2 then []
    else
      dedupOrders (((List.range m.num_grid_lines).map (fun k => k + 1)).flatMap
        (staticLevel m lotFor decimals spacing))

/-! ### Pyramiding model (`pyramid_grid.py`) — no de-duplication pass -/
structure PyramidGridModel where
  params : BaseTradeParams
  num_pyramid_levels : ℕ
  atr_multiplier_spacing : ℚ
  sl_at_previous_level : Bool
  sl_atr_multiplier : ℚ
  tp_atr_multiplier : ℚ
deriving DecidableEq

def PyramidGridModel.mk? (p : BaseTradeParams) (num_pyramid_levels : ℤ)
    (atr_multiplier_spacing : ℚ) (sl_at_previous_level : Bool)
    (sl_atr_multiplier tp_atr_multiplier : ℚ) : Option PyramidGridModel :=
  if baseParamsValid p then
    some { params := p, num_pyramid_levels := (max 1 num_pyramid_levels).toNat,
           atr_multiplier_spacing := max (1/10) atr_multiplier_spacing,
           sl_at_previous_level := sl_at_previous_level,
           sl_atr_multiplier := max (1/10) sl_atr_multiplier,
           tp_atr_multiplier := max (1/10) tp_atr_multiplier }
  else none

/-- The pyramid loop (lines 79–131): one same-direction stop order per
level, each entry one spacing beyond the previous *appended* entry; any
geometric failure or a non-positive lot size breaks the chain, keeping
what was accumulated; an invalid direction returns `[]`. -/
def pyramidLoop (m : PyramidGridModel) (lotFor : ℚ → ℚ → ℚ) (decimals : ℕ)
    (spacing tp_distance sl_atr_dist : ℚ) :
    ℕ → ℕ → ℚ → List OrderSpec → List OrderSpec
  | 0, _, _, acc => acc
  | k + 1, i, last_entry_price, acc =>
    if lowerEq m.params.direction "buy" then
      let entry_price := roundPy (last_entry_price + spacing) decimals
      let order_sl := if m.sl_at_previous_level then roundPy last_entry_price decimals
        else roundPy (entry_price - sl_atr_dist) decimals
      let order_tp := roundPy (entry_price + tp_distance) decimals
      if entry_price ≤ order_sl then acc
      else if order_tp ≤ entry_price then acc
      else
        let lot_size := lotFor entry_price order_sl
        let spec : OrderSpec :=
          { symbol := m.params.symbol, order_type := .BUY_STOP,
            entry_price := entry_price, sl := order_sl, tp := order_tp,
            lot_size := lot_size,
            grid_id := "PG_" ++ m.params.symbol ++ "_BP_" ++ toString i }
        if 0 < lot_size then
          pyramidLoop m lotFor decimals spacing tp_distance sl_atr_dist k (i + 1)
            entry_price (acc ++ [spec])
        else acc
    else if lowerEq m.params.direction "sell" then
      let entry_price := roundPy (last_entry_price - spacing) decimals
      let order_sl := if m.sl_at_previous_level then roundPy last_entry_price decimals
        else roundPy (entry_price + sl_atr_dist) decimals
      let order_tp := roundPy (entry_price - tp_distance) decimals
      if order_sl ≤ entry_price then acc
      else if entry_price ≤ order_tp then acc
      else
        let lot_size := lotFor entry_price order_sl
        let spec : OrderSpec :=
          { symbol := m.params.symbol, order_type := .SELL_STOP,
            entry_price := entry_price, sl := order_sl, tp := order_tp,
            lot_size := lot_size,
            grid_id := "PG_" ++ m.params.symbol ++ "_SP_" ++ toString i }
        if 0 < lot_size then
          pyramidLoop m lotFor decimals spacing tp_distance sl_atr_dist k (i + 1)
            entry_price (acc ++ [spec])
        else acc
    else []

/-- `PyramidGridModel.generate_grid_orders`: note there is **no**
`unique_orders` pass in this model. -/
def pyramidGenerate (m : PyramidGridModel) (lotFor : ℚ → ℚ → ℚ)
    (decimals : ℕ) : List OrderSpec :=
  if m.params.atr ≤ 0 then []
  else
    let spacing := m.params.atr * m.atr_multiplier_spacing
    let min_pip_spacing : ℚ := 1 / 10 ^ decimals
    if spacing < min_pip_spacing / 2 then []
    else
      let tp_distance := m.params.atr * m.tp_atr_multiplier
      let sl_atr_dist := m.params.atr * m.sl_atr_multiplier
      pyramidLoop m lotFor decimals spacing tp_distance sl_atr_dist
        m.num_pyramid_levels 1 m.params.base_price []

/-! ## Signal router (`signal_router.py`) -/
inductive VolSignal where
  | HIGH | LOW | NORMAL
deriving DecidableEq

inductive TrendSignal where
  | UP | DOWN | WEAK_UP | WEAK_DOWN | NONE
deriving DecidableEq

inductive GridModelName where
  | VolatilityGrid | DualGrid | StaticGrid | PyramidGrid | StructureGrid | RangeGrid
deriving DecidableEq

/-- The indicator values of the latest bar that `evaluate_trend` reads
(`prev_ema_short` is absent when there is a single row of history). -/
structure TrendRow where
  ema_short : ℚ
  ema_long : ℚ
  adx : ℚ
  plus_di : ℚ
  minus_di : ℚ
  prev_ema_short : Option ℚ
deriving DecidableEq

/-- `SignalRouter.evaluate_trend` (lines 109–124): the strong ADX/EMA/DI
test first, else the weak EMA-separation heuristic. -/
def evaluate_trend (adx_trend_threshold : ℚ) (row : TrendRow) : TrendSignal :=
  let strong : TrendSignal :=
    if adx_trend_threshold < row.adx then
      if row.ema_long < row.ema_short ∧ row.minus_di < row.plus_di then .UP
      else if row.ema_short < row.ema_long ∧ row.plus_di < row.minus_di then .DOWN
      else .NONE
    else .NONE
  if strong ≠ .NONE then strong
  else if row.ema_long < row.ema_short
      ∧ 1/1000 < (row.ema_short - row.ema_long) / row.ema_long then
    match row.prev_ema_short with
    | some prev =>
      if prev < row.ema_short then .WEAK_UP
      else if row.ema_long < row.ema_short then .WEAK_UP else .NONE
    | none => if row.ema_long < row.ema_short then .WEAK_UP else .NONE
  else if row.ema_short < row.ema_long
      ∧ 1/1000 < (row.ema_long - row.ema_short) / row.ema_short then
    match row.prev_ema_short with
    | some prev =>
      if row.ema_short < prev then .WEAK_DOWN
      else if row.ema_short < row.ema_long then .WEAK_DOWN else .NONE
    | none => if row.ema_short < row.ema_long then .WEAK_DOWN else .NONE
  else .NONE

/-- `trend_strength_adx is not None and trend_strength_adx > threshold + 5`. -/
def adxAbove (adx_trend_threshold : ℚ) : Option ℚ → Bool
  | some a => decide (adx_trend_threshold + 5 < a)
  | none => false

/-- Python truthiness of an optional float (`if near_sh and …`). -/
def truthyOptQ : Option ℚ → Bool
  | none => false
  | some x => !(x == 0)

/-- Python truthiness of an optional bool (`if is_ranging:`). -/
def truthyOptB : Option Bool → Bool
  | none => false
  | some b => b

/-- The decision tree of `SignalRouter.select_grid_model` (lines 189–207),
over the four evaluated signals; `none` components are signals whose
required indicator columns were missing/NaN. -/
def select_from_signals (adx_trend_threshold : ℚ) (volatility : Option VolSignal)
    (trend_dir : Option TrendSignal) (trend_strength_adx : Option ℚ)
    (is_ranging : Option Bool) (near_sh near_sl : Option ℚ)
    (direction : String) : GridModelName :=
  if truthyOptB is_ranging then .RangeGrid
  else if truthyOptQ near_sh ∧ lowerEq direction "sell" then .StructureGrid
  else if truthyOptQ near_sl ∧ lowerEq direction "buy" then .StructureGrid
  else if (trend_dir = some .UP ∨ trend_dir = some .DOWN)
      ∧ adxAbove adx_trend_threshold trend_strength_adx then
    (if volatility = some .HIGH then .VolatilityGrid else .PyramidGrid)
  else if (trend_dir = some .WEAK_UP ∨ trend_dir = some .WEAK_DOWN)
      ∧ volatility ≠ some .HIGH
      ∧ ((trend_dir = some .WEAK_UP ∧ lowerEq direction "buy")
         ∨ (trend_dir = some .WEAK_DOWN ∧ lowerEq direction "sell")) then .StaticGrid
  else if volatility = some .HIGH then .VolatilityGrid
  else if volatility = some .LOW ∧ ¬ truthyOptB is_ranging then .DualGrid
  else if lowerEq direction "buy" ∨ lowerEq direction "sell" then .StaticGrid
  else .VolatilityGrid

/-- `SignalRouter.select_grid_model`: the trend signal and its ADX
strength come from `evaluate_trend` on the latest row (both `None` when
the trend columns are unavailable); the other three evaluations enter as
signals. -/
def select_grid_model (adx_trend_threshold : ℚ) (volatility : Option VolSignal)
    (trendRow : Option TrendRow) (is_ranging : Option Bool)
    (near_sh near_sl : Option ℚ) (direction : String) : GridModelName :=
  let tpair : Option TrendSignal × Option ℚ :=
    match trendRow with
    | none => (none, none)
    | some row => (some (evaluate_trend adx_trend_threshold row), some row.adx)
  select_from_signals adx_trend_threshold volatility tpair.1 tpair.2 is_ranging
    near_sh near_sl direction

/-- The C5 witness's base trade: every required field truthy, direction
valid, ATR negative. -/
def c5Params : BaseTradeParams :=
  { symbol := "EURUSD", direction := "buy", base_price := 11/10, base_sl := 1,
    base_tp := 0, base_size_lots := 1/100, atr := -1 }

def c5Model : VolatilityGridModel :=
  { params := c5Params, num_levels := 3, atr_multiplier := 1 }

/-- The C9 counterexample's base trade and pyramid model: gold-style
2-decimal symbol, ATR half a point, so each level's entry rounds back
onto the previous one (banker's rounding of the exact half). -/
def c9Params : BaseTradeParams :=
  { symbol := "XAUUSD", direction := "buy", base_price := 100, base_sl := 99,
    base_tp := 101, base_size_lots := 1/100, atr := 1/200 }

def c9Pyramid : PyramidGridModel :=
  { params := c9Params, num_pyramid_levels := 2, atr_multiplier_spacing := 1,
    sl_at_previous_level := false, sl_atr_multiplier := 2, tp_atr_multiplier := 2 }

/-- The C5 counterexample's base trade and static model: ATR negative but
truthy, so construction succeeds, and the static ladder generator — which
never reads ATR — still emits a rung. -/
def c5sParams : BaseTradeParams :=
  { symbol := "EURUSD", direction := "buy", base_price := 11/10, base_sl := 1,
    base_tp := 2, base_size_lots := 1/100, atr := -1 }

def c5Static : StaticGridModel :=
  { params := c5sParams, num_grid_lines := 1, use_base_tp_for_all := true,
    individual_tp_rr_ratio := 1 }

/-! ## Theorems -/

theorem roundHalfEven_ge_floor (x : ℚ) : ⌊x⌋ ≤ roundHalfEven x := by
  unfold roundHalfEven
  split_ifs <;> omega

theorem roundHalfEven_le_floor_add_one (x : ℚ) : roundHalfEven x ≤ ⌊x⌋ + 1 := by
  unfold roundHalfEven
  split_ifs <;> omega

theorem roundHalfEven_mono {x y : ℚ} (h : x ≤ y) :
    roundHalfEven x ≤ roundHalfEven y := by
  rcases lt_or_eq_of_le (Int.floor_le_floor h) with hf | hf
  · calc roundHalfEven x ≤ ⌊x⌋ + 1 := roundHalfEven_le_floor_add_one x
      _ ≤ ⌊y⌋ := by omega
      _ ≤ roundHalfEven y := roundHalfEven_ge_floor y
  · unfold roundHalfEven
    have hr : x - (⌊x⌋ : ℚ) ≤ y - (⌊y⌋ : ℚ) := by
      rw [hf]; linarith
    rw [hf]
    split_ifs <;> first | omega | linarith

theorem roundHalfEven_nonneg {x : ℚ} (h : 0 ≤ x) : 0 ≤ roundHalfEven x := by
  have := roundHalfEven_ge_floor x
  have : (0 : ℤ) ≤ ⌊x⌋ := by positivity
  omega

theorem roundPy_mono {x y : ℚ} (n : ℕ) (h : x ≤ y) : roundPy x n ≤ roundPy y n := by
  unfold roundPy
  have hm : roundHalfEven (x * 10 ^ n) ≤ roundHalfEven (y * 10 ^ n) :=
    roundHalfEven_mono (by
      have hp : (0 : ℚ) < 10 ^ n := by positivity
      exact mul_le_mul_of_nonneg_right h (le_of_lt hp))
  have hp : (0 : ℚ) < 10 ^ n := by positivity
  exact div_le_div_of_nonneg_right (by exact_mod_cast hm) hp.le

theorem roundPy_nonneg {x : ℚ} (n : ℕ) (h : 0 ≤ x) : 0 ≤ roundPy x n := by
  unfold roundPy
  have hp : (0 : ℚ) < 10 ^ n := by positivity
  have hh : (0 : ℤ) ≤ roundHalfEven (x * 10 ^ n) :=
    roundHalfEven_nonneg (by positivity)
  positivity

section RiskLemmas

variable (cfg : SymbolCfg) (symbol : String)

theorem raw_lot_size_mono (entry sl : ℚ) {r1 r2 : ℚ}
    (hv : 0 < value_at_risk_per_lot cfg symbol entry sl) (h : r1 ≤ r2) :
    raw_lot_size cfg symbol entry sl r1 ≤ raw_lot_size cfg symbol entry sl r2 :=
  div_le_div_of_nonneg_right h hv.le

theorem stepped_lot_size_nonneg (entry sl : ℚ) {r : ℚ} (hr : 0 < r)
    (hv : 0 < value_at_risk_per_lot cfg symbol entry sl) :
    0 ≤ stepped_lot_size cfg symbol entry sl r := by
  have hraw : 0 < raw_lot_size cfg symbol entry sl r := div_pos hr hv
  unfold stepped_lot_size
  split_ifs with hstep
  · have hfl : (0 : ℤ) ≤ ⌊raw_lot_size cfg symbol entry sl r / cfg.lot_step⌋ :=
      Int.floor_nonneg.mpr (div_pos hraw hstep).le
    exact mul_nonneg (by exact_mod_cast hfl) hstep.le
  · exact hraw.le

theorem final_lot_size_nonneg (entry sl : ℚ) {r : ℚ} (hr : 0 < r)
    (hv : 0 < value_at_risk_per_lot cfg symbol entry sl) :
    0 ≤ final_lot_size cfg symbol entry sl r := by
  unfold final_lot_size
  split_ifs with hmin
  · exact le_trans (stepped_lot_size_nonneg cfg symbol entry sl hr hv) hmin.le
  · exact stepped_lot_size_nonneg cfg symbol entry sl hr hv

theorem stepped_lot_size_mono (entry sl : ℚ) {r1 r2 : ℚ}
    (hv : 0 < value_at_risk_per_lot cfg symbol entry sl) (h : r1 ≤ r2) :
    stepped_lot_size cfg symbol entry sl r1 ≤ stepped_lot_size cfg symbol entry sl r2 := by
  have hraw := raw_lot_size_mono cfg symbol entry sl hv h
  unfold stepped_lot_size
  split_ifs with hstep
  · have hfl := Int.floor_le_floor (div_le_div_of_nonneg_right hraw hstep.le)
    exact mul_le_mul_of_nonneg_right (by exact_mod_cast hfl) hstep.le
  · exact hraw

theorem final_lot_size_mono (entry sl : ℚ) {r1 r2 : ℚ}
    (hv : 0 < value_at_risk_per_lot cfg symbol entry sl) (h : r1 ≤ r2) :
    final_lot_size cfg symbol entry sl r1 ≤ final_lot_size cfg symbol entry sl r2 := by
  have hstep := stepped_lot_size_mono cfg symbol entry sl hv h
  unfold final_lot_size
  split_ifs with h1 h2 h2
  · exact le_refl _
  · exact le_of_not_lt h2
  · linarith
  · exact hstep

/-- `calculate_lot_size` in the all-guards-passed case. -/
theorem calculate_lot_size_eq_round (lev pct bal entry sl r : ℚ)
    (hes : entry ≠ sl) (hr : ¬ r ≤ 0)
    (hd : ¬ sl_distance_abs cfg entry sl < cfg.point_value / 2)
    (hp : ¬ sl_pips cfg symbol entry sl ≤ 0)
    (hv : ¬ value_at_risk_per_lot cfg symbol entry sl ≤ 0)
    (hml : ¬ (stepped_lot_size cfg symbol entry sl r < cfg.min_lot_size
        ∧ raw_lot_size cfg symbol entry sl r < cfg.min_lot_size))
    (hm1 : ¬ bal < required_margin cfg symbol lev entry (final_lot_size cfg symbol entry sl r))
    (hm2 : ¬ (1/2) * bal
        < required_margin cfg symbol lev entry (final_lot_size cfg symbol entry sl r)) :
    calculate_lot_size cfg symbol lev pct bal entry sl r
      = roundPy (final_lot_size cfg symbol entry sl r) (final_lot_precision cfg.lot_step) := by
  unfold calculate_lot_size
  rw [if_neg hes, if_neg hr, if_neg hd, if_neg hp, if_neg hv, if_neg hml, if_neg hm1, if_neg hm2]

theorem calculate_lot_size_nonneg (lev pct bal entry sl r : ℚ) :
    0 ≤ calculate_lot_size cfg symbol lev pct bal entry sl r := by
  unfold calculate_lot_size
  split_ifs with h1 h2 h3 h4 h5 h6 h7 h8
  any_goals exact le_refl 0
  exact roundPy_nonneg _ (final_lot_size_nonneg cfg symbol entry sl (not_le.mp h2) (not_le.mp h5))

end RiskLemmas

/-- Every guard of `calculate_lot_size` must have passed when the result
is non-zero, and the result is then the rounded final lot size. -/
theorem calculate_lot_size_ne_zero_guards (cfg : SymbolCfg) (symbol : String)
    (lev pct bal entry sl r : ℚ)
    (hz : calculate_lot_size cfg symbol lev pct bal entry sl r ≠ 0) :
    entry ≠ sl ∧ ¬ r ≤ 0
    ∧ ¬ sl_distance_abs cfg entry sl < cfg.point_value / 2
    ∧ ¬ sl_pips cfg symbol entry sl ≤ 0
    ∧ ¬ value_at_risk_per_lot cfg symbol entry sl ≤ 0
    ∧ ¬ (stepped_lot_size cfg symbol entry sl r < cfg.min_lot_size
        ∧ raw_lot_size cfg symbol entry sl r < cfg.min_lot_size)
    ∧ ¬ bal < required_margin cfg symbol lev entry (final_lot_size cfg symbol entry sl r)
    ∧ ¬ (1/2) * bal
        < required_margin cfg symbol lev entry (final_lot_size cfg symbol entry sl r) := by
  have hes : entry ≠ sl := by
    intro he; apply hz; unfold calculate_lot_size; rw [if_pos he]
  have hr : ¬ r ≤ 0 := by
    intro hle; apply hz; unfold calculate_lot_size; rw [if_neg hes, if_pos hle]
  have hd : ¬ sl_distance_abs cfg entry sl < cfg.point_value / 2 := by
    intro hlt; apply hz; unfold calculate_lot_size; rw [if_neg hes, if_neg hr, if_pos hlt]
  have hp : ¬ sl_pips cfg symbol entry sl ≤ 0 := by
    intro hle; apply hz; unfold calculate_lot_size
    rw [if_neg hes, if_neg hr, if_neg hd, if_pos hle]
  have hv : ¬ value_at_risk_per_lot cfg symbol entry sl ≤ 0 := by
    intro hle; apply hz; unfold calculate_lot_size
    rw [if_neg hes, if_neg hr, if_neg hd, if_neg hp, if_pos hle]
  have hml : ¬ (stepped_lot_size cfg symbol entry sl r < cfg.min_lot_size
      ∧ raw_lot_size cfg symbol entry sl r < cfg.min_lot_size) := by
    intro hand; apply hz; unfold calculate_lot_size
    rw [if_neg hes, if_neg hr, if_neg hd, if_neg hp, if_neg hv, if_pos hand]
  have hma : ¬ bal
      < required_margin cfg symbol lev entry (final_lot_size cfg symbol entry sl r) := by
    intro hlt; apply hz; unfold calculate_lot_size
    rw [if_neg hes, if_neg hr, if_neg hd, if_neg hp, if_neg hv, if_neg hml, if_pos hlt]
  have hmb : ¬ (1/2) * bal
      < required_margin cfg symbol lev entry (final_lot_size cfg symbol entry sl r) := by
    intro hlt; apply hz; unfold calculate_lot_size
    rw [if_neg hes, if_neg hr, if_neg hd, if_neg hp, if_neg hv, if_neg hml, if_neg hma,
      if_pos hlt]
  exact ⟨hes, hr, hd, hp, hv, hml, hma, hmb⟩

/-- C4.  For a fixed symbol, entry, stop-loss, leverage, policy and
balance, `calculate_lot_size` is monotone in the requested risk amount:
a non-monotone pair forces the larger risk's result to 0, and — unless the
smaller risk's result was already 0 — only the margin/balance cap can do
that. -/
theorem C4_lot_size_monotone_in_risk (cfg : SymbolCfg) (symbol : String)
    (lev pct bal entry sl : ℚ) {r1 r2 : ℚ} (h : r1 ≤ r2) :
    calculate_lot_size cfg symbol lev pct bal entry sl r1
      ≤ calculate_lot_size cfg symbol lev pct bal entry sl r2
    ∨ (calculate_lot_size cfg symbol lev pct bal entry sl r2 = 0
       ∧ (calculate_lot_size cfg symbol lev pct bal entry sl r1 = 0
          ∨ bal < required_margin cfg symbol lev entry
              (final_lot_size cfg symbol entry sl r2)
          ∨ (1/2) * bal < required_margin cfg symbol lev entry
              (final_lot_size cfg symbol entry sl r2))) := by
  by_cases hz2 : calculate_lot_size cfg symbol lev pct bal entry sl r2 = 0
  · by_cases hz1 : calculate_lot_size cfg symbol lev pct bal entry sl r1 = 0
    · exact Or.inr ⟨hz2, Or.inl hz1⟩
    obtain ⟨hes, hr1, hd, hp, hv, hml1, hm1a, hm1b⟩ :=
      calculate_lot_size_ne_zero_guards cfg symbol lev pct bal entry sl r1 hz1
    have hcalc1 := calculate_lot_size_eq_round cfg symbol lev pct bal entry sl r1
      hes hr1 hd hp hv hml1 hm1a hm1b
    have hv' := not_le.mp hv
    have hr2 : ¬ r2 ≤ 0 := fun hle => hr1 (le_trans h hle)
    have hraw12 := raw_lot_size_mono cfg symbol entry sl hv' h
    have hstep12 := stepped_lot_size_mono cfg symbol entry sl hv' h
    have hml2 : ¬ (stepped_lot_size cfg symbol entry sl r2 < cfg.min_lot_size
        ∧ raw_lot_size cfg symbol entry sl r2 < cfg.min_lot_size) := by
      rintro ⟨hs2, hw2⟩
      rcases lt_or_le (stepped_lot_size cfg symbol entry sl r1) cfg.min_lot_size with h1 | h1
      · exact (fun hw1 => hml1 ⟨h1, hw1⟩) (lt_of_le_of_lt hraw12 hw2)
      · exact absurd hs2 (not_lt.mpr (le_trans h1 hstep12))
    by_cases hm2a : bal
        < required_margin cfg symbol lev entry (final_lot_size cfg symbol entry sl r2)
    · exact Or.inr ⟨hz2, Or.inr (Or.inl hm2a)⟩
    by_cases hm2b : (1/2) * bal
        < required_margin cfg symbol lev entry (final_lot_size cfg symbol entry sl r2)
    · exact Or.inr ⟨hz2, Or.inr (Or.inr hm2b)⟩
    exfalso
    have hcalc2 := calculate_lot_size_eq_round cfg symbol lev pct bal entry sl r2
      hes hr2 hd hp hv hml2 hm2a hm2b
    rw [hcalc2] at hz2
    have hmono := roundPy_mono (final_lot_precision cfg.lot_step)
      (final_lot_size_mono cfg symbol entry sl hv' h)
    apply hz1
    rw [hcalc1]
    have h0 : roundPy (final_lot_size cfg symbol entry sl r1)
        (final_lot_precision cfg.lot_step) ≤ 0 := hz2 ▸ hmono
    exact le_antisymm h0
      (roundPy_nonneg _ (final_lot_size_nonneg cfg symbol entry sl (not_le.mp hr1) hv'))
  · left
    obtain ⟨hes, hr2, hd, hp, hv, hml2, hm2a, hm2b⟩ :=
      calculate_lot_size_ne_zero_guards cfg symbol lev pct bal entry sl r2 hz2
    have hcalc2 := calculate_lot_size_eq_round cfg symbol lev pct bal entry sl r2
      hes hr2 hd hp hv hml2 hm2a hm2b
    by_cases hr1 : r1 ≤ 0
    · have hc1 : calculate_lot_size cfg symbol lev pct bal entry sl r1 = 0 := by
        unfold calculate_lot_size; rw [if_neg hes, if_pos hr1]
      rw [hc1]; exact calculate_lot_size_nonneg cfg symbol lev pct bal entry sl r2
    by_cases hml1 : stepped_lot_size cfg symbol entry sl r1 < cfg.min_lot_size
        ∧ raw_lot_size cfg symbol entry sl r1 < cfg.min_lot_size
    · have hc1 : calculate_lot_size cfg symbol lev pct bal entry sl r1 = 0 := by
        unfold calculate_lot_size
        rw [if_neg hes, if_neg hr1, if_neg hd, if_neg hp, if_neg hv, if_pos hml1]
      rw [hc1]; exact calculate_lot_size_nonneg cfg symbol lev pct bal entry sl r2
    by_cases hm1a : bal
        < required_margin cfg symbol lev entry (final_lot_size cfg symbol entry sl r1)
    · have hc1 : calculate_lot_size cfg symbol lev pct bal entry sl r1 = 0 := by
        unfold calculate_lot_size
        rw [if_neg hes, if_neg hr1, if_neg hd, if_neg hp, if_neg hv, if_neg hml1, if_pos hm1a]
      rw [hc1]; exact calculate_lot_size_nonneg cfg symbol lev pct bal entry sl r2
    by_cases hm1b : (1/2) * bal
        < required_margin cfg symbol lev entry (final_lot_size cfg symbol entry sl r1)
    · have hc1 : calculate_lot_size cfg symbol lev pct bal entry sl r1 = 0 := by
        unfold calculate_lot_size
        rw [if_neg hes, if_neg hr1, if_neg hd, if_neg hp, if_neg hv, if_neg hml1, if_neg hm1a,
          if_pos hm1b]
      rw [hc1]; exact calculate_lot_size_nonneg cfg symbol lev pct bal entry sl r2
    have hcalc1 := calculate_lot_size_eq_round cfg symbol lev pct bal entry sl r1
      hes hr1 hd hp hv hml1 hm1a hm1b
    rw [hcalc1, hcalc2]
    exact roundPy_mono _ (final_lot_size_mono cfg symbol entry sl (not_le.mp hv) h)

/-- Witness for C4 at the spec's EURUSD example (entry 1.10000, sl 1.09500,
balance 10000, leverage 1:100), risk 5 vs 10 dollars. -/
theorem C4_lot_size_monotone_in_risk_witness :
    calculate_lot_size eurusdCfg "EURUSD" 100 2 10000 (11/10) (219/200) 5
      ≤ calculate_lot_size eurusdCfg "EURUSD" 100 2 10000 (11/10) (219/200) 10
    ∨ (calculate_lot_size eurusdCfg "EURUSD" 100 2 10000 (11/10) (219/200) 10 = 0
       ∧ (calculate_lot_size eurusdCfg "EURUSD" 100 2 10000 (11/10) (219/200) 5 = 0
          ∨ 10000 < required_margin eurusdCfg "EURUSD" 100 (11/10)
              (final_lot_size eurusdCfg "EURUSD" (11/10) (219/200) 10)
          ∨ (1/2) * 10000 < required_margin eurusdCfg "EURUSD" 100 (11/10)
              (final_lot_size eurusdCfg "EURUSD" (11/10) (219/200) 10))) :=
  C4_lot_size_monotone_in_risk eurusdCfg "EURUSD" 100 2 10000 (11/10) (219/200)
    (by norm_num)

/-- C7.  Once the distance/risk/min-lot guards have passed with a positive
candidate lot, the margin caps (margin above the balance, or above half the
balance) force a zero result; the maximum-account-risk-percentage policy
never does — the returned lot size is the risk-derived candidate, rounded,
for every policy value. -/
theorem C7_margin_cap_rejects_policy_only_warns (cfg : SymbolCfg) (symbol : String)
    (lev pct bal entry sl r : ℚ)
    (hes : entry ≠ sl) (hr : 0 < r)
    (hd : ¬ sl_distance_abs cfg entry sl < cfg.point_value / 2)
    (hp : ¬ sl_pips cfg symbol entry sl ≤ 0)
    (hv : ¬ value_at_risk_per_lot cfg symbol entry sl ≤ 0)
    (hml : ¬ (stepped_lot_size cfg symbol entry sl r < cfg.min_lot_size
        ∧ raw_lot_size cfg symbol entry sl r < cfg.min_lot_size))
    (_hpos : 0 < final_lot_size cfg symbol entry sl r) :
    ((bal < required_margin cfg symbol lev entry (final_lot_size cfg symbol entry sl r)
        ∨ (1/2) * bal
          < required_margin cfg symbol lev entry (final_lot_size cfg symbol entry sl r)) →
      calculate_lot_size cfg symbol lev pct bal entry sl r = 0)
    ∧ (∀ pct2 : ℚ, calculate_lot_size cfg symbol lev pct bal entry sl r
        = calculate_lot_size cfg symbol lev pct2 bal entry sl r)
    ∧ (¬ (bal < required_margin cfg symbol lev entry (final_lot_size cfg symbol entry sl r)
        ∨ (1/2) * bal
          < required_margin cfg symbol lev entry (final_lot_size cfg symbol entry sl r)) →
      calculate_lot_size cfg symbol lev pct bal entry sl r
        = roundPy (final_lot_size cfg symbol entry sl r) (final_lot_precision cfg.lot_step)) := by
  have hr' : ¬ r ≤ 0 := not_le.mpr hr
  refine ⟨?_, fun _ => rfl, ?_⟩
  · rintro (hcap | hcap)
    · unfold calculate_lot_size
      rw [if_neg hes, if_neg hr', if_neg hd, if_neg hp, if_neg hv, if_neg hml, if_pos hcap]
    · by_cases hcap1 : bal
        < required_margin cfg symbol lev entry (final_lot_size cfg symbol entry sl r)
      · unfold calculate_lot_size
        rw [if_neg hes, if_neg hr', if_neg hd, if_neg hp, if_neg hv, if_neg hml, if_pos hcap1]
      · unfold calculate_lot_size
        rw [if_neg hes, if_neg hr', if_neg hd, if_neg hp, if_neg hv, if_neg hml, if_neg hcap1,
          if_pos hcap]
  · intro hncap
    push_neg at hncap
    exact calculate_lot_size_eq_round cfg symbol lev pct bal entry sl r hes hr' hd hp hv hml
      (not_lt.mpr hncap.1) (not_lt.mpr hncap.2)

theorem eurusd_not_jpy : symContains "EURUSD" "JPY" = false := by decide

theorem eurusd_not_metal : (eurusdCfg.is_cfd_or_metal || symContains "EURUSD" "XAU"
    || symContains "EURUSD" "XAG" || symContains "EURUSD" "OIL"
    || symContains "EURUSD" "IDX") = false := by decide

theorem eurusd_pip_unit : standard_pip_unit eurusdCfg "EURUSD" = 1/10000 := by
  rw [standard_pip_unit, eurusd_not_jpy]
  simp only [Bool.false_eq_true, if_false]
  rw [if_neg (by rw [eurusd_not_metal]; simp)]
  norm_num [eurusdCfg]

theorem eurusd_sl_distance :
    sl_distance_abs eurusdCfg (11/10) (219/200) = 1/200 := by
  norm_num [sl_distance_abs, roundPy, roundHalfEven, eurusdCfg]

theorem eurusd_sl_pips : sl_pips eurusdCfg "EURUSD" (11/10) (219/200) = 50 := by
  rw [sl_pips, eurusd_sl_distance, eurusd_pip_unit]; norm_num

theorem eurusd_varpl :
    value_at_risk_per_lot eurusdCfg "EURUSD" (11/10) (219/200) = 500 := by
  rw [value_at_risk_per_lot, eurusd_sl_pips]; norm_num [eurusdCfg]

theorem eurusd_raw : raw_lot_size eurusdCfg "EURUSD" (11/10) (219/200) 10 = 1/50 := by
  rw [raw_lot_size, eurusd_varpl]; norm_num

theorem eurusd_stepped :
    stepped_lot_size eurusdCfg "EURUSD" (11/10) (219/200) 10 = 1/50 := by
  rw [stepped_lot_size, if_pos (by norm_num [eurusdCfg]), eurusd_raw]
  norm_num [eurusdCfg]

theorem eurusd_final :
    final_lot_size eurusdCfg "EURUSD" (11/10) (219/200) 10 = 1/50 := by
  rw [final_lot_size, eurusd_stepped, if_neg (by norm_num [eurusdCfg])]

/-- Witness for C7: EURUSD, entry 1.10000, sl 1.09500, risk 10 on a
10000 balance — all pre-margin guards pass with candidate lot 0.02. -/
theorem C7_margin_cap_rejects_policy_only_warns_witness :
    ((10000 < required_margin eurusdCfg "EURUSD" 100 (11/10)
          (final_lot_size eurusdCfg "EURUSD" (11/10) (219/200) 10)
        ∨ (1/2) * 10000 < required_margin eurusdCfg "EURUSD" 100 (11/10)
          (final_lot_size eurusdCfg "EURUSD" (11/10) (219/200) 10)) →
      calculate_lot_size eurusdCfg "EURUSD" 100 2 10000 (11/10) (219/200) 10 = 0)
    ∧ (∀ pct2 : ℚ, calculate_lot_size eurusdCfg "EURUSD" 100 2 10000 (11/10) (219/200) 10
        = calculate_lot_size eurusdCfg "EURUSD" 100 pct2 10000 (11/10) (219/200) 10)
    ∧ (¬ (10000 < required_margin eurusdCfg "EURUSD" 100 (11/10)
          (final_lot_size eurusdCfg "EURUSD" (11/10) (219/200) 10)
        ∨ (1/2) * 10000 < required_margin eurusdCfg "EURUSD" 100 (11/10)
          (final_lot_size eurusdCfg "EURUSD" (11/10) (219/200) 10)) →
      calculate_lot_size eurusdCfg "EURUSD" 100 2 10000 (11/10) (219/200) 10
        = roundPy (final_lot_size eurusdCfg "EURUSD" (11/10) (219/200) 10)
            (final_lot_precision eurusdCfg.lot_step)) :=
  C7_margin_cap_rejects_policy_only_warns eurusdCfg "EURUSD" 100 2 10000 (11/10) (219/200) 10
    (by norm_num) (by norm_num)
    (by rw [eurusd_sl_distance]; norm_num [eurusdCfg])
    (by rw [eurusd_sl_pips]; norm_num)
    (by rw [eurusd_varpl]; norm_num)
    (by rw [eurusd_stepped]; norm_num [eurusdCfg])
    (by rw [eurusd_final]; norm_num)

theorem OrderType.sellSide_not_buySide {t : OrderType} (h : t.isSellSide = true) :
    t.isBuySide = false := by
  cases t <;> simp_all [OrderType.isSellSide, OrderType.isBuySide]

theorem OrderType.buyPending_not_sellPending {t : OrderType} (h : t.isBuyPending = true) :
    t.isSellPending = false := by
  cases t <;> simp_all [OrderType.isBuyPending, OrderType.isSellPending]

/-- C1.  In `check_active_positions`, the stop-loss test runs before the
take-profit test: on any bar where both the SL and the TP of an active
order are crossable, the order closes `STOPPED_OUT` at the SL price and
never `TP_HIT` — for buy-side orders (low ≤ SL and high ≥ TP) and,
mirrored, for sell-side orders (high ≥ SL and low ≤ TP). -/
theorem C1_sl_wins_ties (o : Order) (high low : ℚ) :
    (o.orderType.isBuySide = true → o.slPrice ≠ 0 → o.tpPrice ≠ 0 →
      low ≤ o.slPrice → o.tpPrice ≤ high →
      closeDecision o high low = some (.STOPPED_OUT, o.slPrice))
    ∧ (o.orderType.isSellSide = true → o.slPrice ≠ 0 → o.tpPrice ≠ 0 →
      o.slPrice ≤ high → low ≤ o.tpPrice →
      closeDecision o high low = some (.STOPPED_OUT, o.slPrice))
    ∧ (∀ (m : MarketData) (active : List ℕ) (bar : Bar),
      o.orderId ∈ active → o.fillPrice.isSome = true →
      lookupBar m o.symbol = some bar →
      o.orderType.isBuySide = true → o.slPrice ≠ 0 → o.tpPrice ≠ 0 →
      bar.low ≤ o.slPrice → o.tpPrice ≤ bar.high →
      applyClose m active o = { o with status := .STOPPED_OUT, closePrice := some o.slPrice }) := by
  refine ⟨?_, ?_, ?_⟩
  · intro hb hsl htp hlow hhigh
    unfold closeDecision
    rw [if_pos hb, if_pos ⟨hsl, hlow⟩]
  · intro hs hsl htp hhigh hlow
    unfold closeDecision
    rw [if_neg, if_pos hs, if_pos ⟨hsl, hhigh⟩]
    simp [OrderType.sellSide_not_buySide hs]
  · intro m active bar hmem hfill hbar hb hsl htp hlow hhigh
    have hdec : closeDecision o bar.high bar.low = some (.STOPPED_OUT, o.slPrice) := by
      unfold closeDecision
      rw [if_pos hb, if_pos ⟨hsl, hlow⟩]
    simp only [applyClose, if_pos (And.intro hmem hfill), hbar, hdec]

/-- Witness for C1: the spec's example — an active long with SL 1.0950
and TP 1.1100 on the bar {high 1.1150, low 1.0900} closes `STOPPED_OUT`
at 1.0950 — plus the sell mirror. -/
theorem C1_sl_wins_ties_witness :
    closeDecision
      { orderId := 0, symbol := "EURUSD", orderType := .BUY_STOP,
        entryPrice := 11/10, slPrice := 219/200, tpPrice := 111/100, lotSize := 1/100,
        status := .FILLED, gridId := none, originalOrderId := 0,
        fillPrice := some (11/10), closePrice := none,
        initialSlPrice := 219/200, initialTpPrice := 111/100, regenerationAttempts := 0 }
      (223/200) (109/100) = some (.STOPPED_OUT, 219/200)
    ∧ closeDecision
      { orderId := 1, symbol := "EURUSD", orderType := .SELL_STOP,
        entryPrice := 11/10, slPrice := 111/100, tpPrice := 219/200, lotSize := 1/100,
        status := .FILLED, gridId := none, originalOrderId := 1,
        fillPrice := some (11/10), closePrice := none,
        initialSlPrice := 111/100, initialTpPrice := 219/200, regenerationAttempts := 0 }
      (223/200) (109/100) = some (.STOPPED_OUT, 111/100) :=
  ⟨(C1_sl_wins_ties _ (223/200) (109/100)).1 (by decide) (by norm_num) (by norm_num)
      (by norm_num) (by norm_num),
   (C1_sl_wins_ties _ (223/200) (109/100)).2.1 (by decide) (by norm_num) (by norm_num)
      (by norm_num) (by norm_num)⟩

/-- C2.  For a buy-type pending kind, `place_new_order` creates an order
exactly when lot > 0, entry > SL and (TP = 0 or TP > entry); a violating
spec is rejected by returning no order and leaving the state untouched; a
created order starts `PENDING` and is registered. -/
theorem C2_buy_pending_place_validation (s : OMState) (symbol : String) (t : OrderType)
    (entry sl tp lot : ℚ) (g : Option String) (orig : Option ℕ) (regen : Bool)
    (ht : t.isBuyPending = true) :
    ((place_new_order s symbol t entry sl tp lot g orig regen).1.isSome
      ↔ (0 < lot ∧ sl < entry ∧ (tp = 0 ∨ entry < tp)))
    ∧ (∀ o, (place_new_order s symbol t entry sl tp lot g orig regen).1 = some o →
        o.status = .PENDING
        ∧ o ∈ (place_new_order s symbol t entry sl tp lot g orig regen).2.orders)
    ∧ ((place_new_order s symbol t entry sl tp lot g orig regen).1 = none →
        (place_new_order s symbol t entry sl tp lot g orig regen).2 = s) := by
  have hs := OrderType.buyPending_not_sellPending ht
  refine ⟨?_, ?_, ?_⟩
  · unfold place_new_order
    rw [ht, hs]
    split_ifs with h1 h2 h3 h4 h5
    · simp only [Option.isSome_none, Bool.false_eq_true, false_iff]
      rintro ⟨hl, -, -⟩; exact absurd hl (not_lt.mpr h1)
    · simp only [Option.isSome_none, Bool.false_eq_true, false_iff]
      rintro ⟨-, he, -⟩; exact absurd he (not_lt.mpr h2.2)
    · simp only [Option.isSome_none, Bool.false_eq_true, false_iff]
      rintro ⟨-, -, htp⟩
      rcases htp with h0 | hlt
      · exact h3.2.1 h0
      · exact absurd hlt (not_lt.mpr h3.2.2)
    · exact absurd h4.1 (by simp)
    · exact absurd h5.1 (by simp)
    · dsimp only
      simp only [Option.isSome_some, eq_self_iff_true, true_iff]
      refine ⟨lt_of_not_le h1, lt_of_not_le (fun hle => h2 ⟨rfl, hle⟩), ?_⟩
      by_cases h0 : tp = 0
      · exact Or.inl h0
      · exact Or.inr (lt_of_not_le (fun hle => h3 ⟨rfl, h0, hle⟩))
    · dsimp only
      simp only [Option.isSome_some, eq_self_iff_true, true_iff]
      refine ⟨lt_of_not_le h1, lt_of_not_le (fun hle => h2 ⟨rfl, hle⟩), ?_⟩
      by_cases h0 : tp = 0
      · exact Or.inl h0
      · exact Or.inr (lt_of_not_le (fun hle => h3 ⟨rfl, h0, hle⟩))
  · intro o
    unfold place_new_order
    rw [ht, hs]
    split_ifs with h1 h2 h3 h4 h5
    · intro h; exact absurd h (by simp)
    · intro h; exact absurd h (by simp)
    · intro h; exact absurd h (by simp)
    · exact absurd h4.1 (by simp)
    · exact absurd h5.1 (by simp)
    · dsimp only
      intro h
      rw [Option.some_inj] at h
      subst h
      exact ⟨rfl, by simp⟩
    · dsimp only
      intro h
      rw [Option.some_inj] at h
      subst h
      exact ⟨rfl, by simp⟩
  · unfold place_new_order
    rw [ht, hs]
    split_ifs with h1 h2 h3 h4 h5
    · intro _; rfl
    · intro _; rfl
    · intro _; rfl
    · exact absurd h4.1 (by simp)
    · exact absurd h5.1 (by simp)
    · dsimp only
      intro h; exact absurd h (by simp)
    · dsimp only
      intro h; exact absurd h (by simp)

/-- Witness for C2: a valid buy-limit (entry 1.10, SL 1.09, TP 1.12,
lot 0.01) on a fresh manager. -/
theorem C2_buy_pending_place_validation_witness :
    ((place_new_order (OMState.init 3) "EURUSD" .BUY_LIMIT (11/10) (109/100) (28/25)
        (1/100) none none false).1.isSome
      ↔ (0 < (1/100 : ℚ) ∧ (109/100 : ℚ) < 11/10 ∧ ((28/25 : ℚ) = 0 ∨ (11/10 : ℚ) < 28/25)))
    ∧ (∀ o, (place_new_order (OMState.init 3) "EURUSD" .BUY_LIMIT (11/10) (109/100) (28/25)
        (1/100) none none false).1 = some o →
        o.status = .PENDING
        ∧ o ∈ (place_new_order (OMState.init 3) "EURUSD" .BUY_LIMIT (11/10) (109/100) (28/25)
            (1/100) none none false).2.orders)
    ∧ ((place_new_order (OMState.init 3) "EURUSD" .BUY_LIMIT (11/10) (109/100) (28/25)
        (1/100) none none false).1 = none →
        (place_new_order (OMState.init 3) "EURUSD" .BUY_LIMIT (11/10) (109/100) (28/25)
          (1/100) none none false).2 = OMState.init 3) :=
  C2_buy_pending_place_validation (OMState.init 3) "EURUSD" .BUY_LIMIT (11/10) (109/100)
    (28/25) (1/100) none none false (by decide)

/-- C10.  Market orders bypass the directional SL/TP validation: for any
entry/SL/TP whatsoever, a `MARKET_BUY` or `MARKET_SELL` spec with a
positive lot is accepted and registered in state `PENDING`. -/
theorem C10_market_orders_skip_sltp_validation (s : OMState) (symbol : String)
    (t : OrderType) (entry sl tp lot : ℚ) (g : Option String) (orig : Option ℕ)
    (regen : Bool) (ht : t = .MARKET_BUY ∨ t = .MARKET_SELL) (hlot : 0 < lot) :
    ∃ o, (place_new_order s symbol t entry sl tp lot g orig regen).1 = some o
      ∧ o.status = .PENDING
      ∧ o ∈ (place_new_order s symbol t entry sl tp lot g orig regen).2.orders
      ∧ o.entryPrice = entry ∧ o.slPrice = sl ∧ o.tpPrice = tp := by
  have hb : t.isBuyPending = false := by
    rcases ht with h | h <;> subst h <;> rfl
  have hsp : t.isSellPending = false := by
    rcases ht with h | h <;> subst h <;> rfl
  have hl : ¬ lot ≤ 0 := not_le.mpr hlot
  unfold place_new_order
  rw [hb, hsp]
  split_ifs with h1 h2 h3 h4
  · exact absurd h1.1 (by simp)
  · exact absurd h2.1 (by simp)
  · exact absurd h3.1 (by simp)
  · exact absurd h4.1 (by simp)
  · dsimp only
    exact ⟨_, rfl, rfl, by simp, rfl, rfl, rfl⟩
  · dsimp only
    exact ⟨_, rfl, rfl, by simp, rfl, rfl, rfl⟩

/-- Witness for C10: a `MARKET_BUY` whose prices (entry 1.10, SL 1.20,
TP 1.05) would be rejected for a buy-limit is still created `PENDING`. -/
theorem C10_market_orders_skip_sltp_validation_witness :
    ∃ o, (place_new_order (OMState.init 3) "EURUSD" .MARKET_BUY (11/10) (6/5) (21/20)
        (1/100) none none false).1 = some o
      ∧ o.status = .PENDING
      ∧ o ∈ (place_new_order (OMState.init 3) "EURUSD" .MARKET_BUY (11/10) (6/5) (21/20)
          (1/100) none none false).2.orders
      ∧ o.entryPrice = 11/10 ∧ o.slPrice = 6/5 ∧ o.tpPrice = 21/20 :=
  C10_market_orders_skip_sltp_validation (OMState.init 3) "EURUSD" .MARKET_BUY (11/10)
    (6/5) (21/20) (1/100) none none false (Or.inl rfl) (by norm_num)

/-! ### Per-operation facts used by the invariant proofs -/
theorem applyFill_orderId (m : MarketData) (p : List ℕ) (o : Order) :
    (applyFill m p o).orderId = o.orderId := by
  unfold applyFill
  split_ifs with h
  · cases lookupBar m o.symbol with
    | none => rfl
    | some bar =>
      dsimp only
      cases fillDecision o bar.high bar.low with
      | none => rfl
      | some fp => rfl
  · rfl

theorem applyClose_orderId (m : MarketData) (a : List ℕ) (o : Order) :
    (applyClose m a o).orderId = o.orderId := by
  unfold applyClose
  split_ifs with h
  · cases lookupBar m o.symbol with
    | none => rfl
    | some bar =>
      dsimp only
      cases closeDecision o bar.high bar.low with
      | none => rfl
      | some pr =>
        obtain ⟨st, cp⟩ := pr
        rfl
  · rfl

theorem specConsistent_applyFill (m : MarketData) (p : List ℕ) (o : Order)
    (ho : specConsistent o) : specConsistent (applyFill m p o) := by
  unfold applyFill
  split_ifs with h
  · cases lookupBar m o.symbol with
    | none => exact ho
    | some bar =>
      dsimp only
      cases fillDecision o bar.high bar.low with
      | none => exact ho
      | some fp => exact ho
  · exact ho

theorem specConsistent_applyClose (m : MarketData) (a : List ℕ) (o : Order)
    (ho : specConsistent o) : specConsistent (applyClose m a o) := by
  unfold applyClose
  split_ifs with h
  · cases lookupBar m o.symbol with
    | none => exact ho
    | some bar =>
      dsimp only
      cases closeDecision o bar.high bar.low with
      | none => exact ho
      | some pr =>
        obtain ⟨st, cp⟩ := pr
        exact ho
  · exact ho

theorem find_eq_of_mem_nodup {l : List Order}
    (hnd : (l.map (fun o => o.orderId)).Nodup) {o : Order} (hmem : o ∈ l) :
    l.find? (fun a => a.orderId == o.orderId) = some o := by
  induction l with
  | nil => simp at hmem
  | cons a t ih =>
    rcases List.mem_cons.mp hmem with rfl | hmem2
    · simp [List.find?]
    · have hna : a.orderId ∉ t.map (fun o => o.orderId) := by
        rw [List.map_cons, List.nodup_cons] at hnd
        exact hnd.1
      have hne : (a.orderId == o.orderId) = false := by
        rw [beq_eq_false_iff_ne]
        intro he
        exact hna (he ▸ List.mem_map_of_mem _ hmem2)
      rw [List.find?_cons_of_neg _ (by simp [hne])]
      exact ih (by rw [List.map_cons, List.nodup_cons] at hnd; exact hnd.2) hmem2

theorem findOrder_eq_of_mem {s : OMState} (hwf : idsWF s) {o : Order}
    (hmem : o ∈ s.orders) : findOrder s o.orderId = some o :=
  find_eq_of_mem_nodup hwf.1 hmem

/-- `needs_regeneration` returning true pins down the looked-up order:
stopped out, with its slot counter strictly below the maximum. -/
theorem needs_regeneration_spec {s : OMState} {oid : ℕ}
    (h : needs_regeneration s oid = true) :
    ∃ o, findOrder s oid = some o ∧ o.status = OrderStatus.STOPPED_OUT
      ∧ s.regenerationCounts o.originalOrderId < s.maxRegenerationAttempts := by
  unfold needs_regeneration at h
  cases hf : findOrder s oid with
  | none => rw [hf] at h; exact absurd h (by simp)
  | some o =>
    rw [hf] at h
    dsimp only at h
    split_ifs at h with h1 h2
    exact ⟨o, rfl, not_ne_iff.mp h1, not_le.mp h2⟩

/-- The regeneration spec reuses the stopped order's slot id. -/
theorem get_details_slot {s : OMState} {oid : ℕ} {f : Option ℚ} {dec : ℕ} {rp : RegenSpec}
    (hdet : get_order_details_for_regeneration s oid f dec = some rp) :
    ∃ o, findOrder s oid = some o
      ∧ rp.original_order_id_for_regen = o.originalOrderId := by
  unfold get_order_details_for_regeneration at hdet
  cases hf : findOrder s oid with
  | none => rw [hf] at hdet; exact absurd hdet (by simp)
  | some o =>
    rw [hf] at hdet
    dsimp only at hdet
    by_cases h1 : o.status ≠ OrderStatus.STOPPED_OUT
    · rw [if_pos h1] at hdet
      exact absurd hdet (by simp)
    · rw [if_neg h1] at hdet
      refine ⟨o, rfl, ?_⟩
      rw [Option.some_inj] at hdet
      rw [← hdet]

theorem place_preserves_counts_max (s : OMState) (symbol : String) (t : OrderType)
    (entry sl tp lot : ℚ) (g : Option String) (orig : Option ℕ) (regen : Bool) :
    (place_new_order s symbol t entry sl tp lot g orig regen).2.maxRegenerationAttempts
      = s.maxRegenerationAttempts := by
  unfold place_new_order
  split_ifs <;> rfl

theorem place_nonregen_counts (s : OMState) (symbol : String) (t : OrderType)
    (entry sl tp lot : ℚ) (g : Option String) (orig : Option ℕ) :
    (place_new_order s symbol t entry sl tp lot g orig false).2.regenerationCounts
      = s.regenerationCounts := by
  unfold place_new_order
  split_ifs <;> first | rfl | exact False.elim (by assumption)

theorem slotCountsBounded_place_regen {s : OMState} (symbol : String) (t : OrderType)
    (entry sl tp lot : ℚ) (g : Option String) {slot : ℕ}
    (hb : slotCountsBounded s)
    (hlt : s.regenerationCounts slot < s.maxRegenerationAttempts) :
    slotCountsBounded
      (place_new_order s symbol t entry sl tp lot g (some slot) true).2 := by
  unfold place_new_order
  split_ifs with h1 h2 h3 h4 h5 h6
  · exact hb
  · exact hb
  · exact hb
  · exact hb
  · exact hb
  case neg => exact absurd rfl h6
  · intro slot2
    dsimp only [place_preserves_counts_max]
    show Function.update s.regenerationCounts slot (s.regenerationCounts slot + 1) slot2
      ≤ s.maxRegenerationAttempts
    rcases eq_or_ne slot2 slot with rfl | hne
    · rw [Function.update_same]
      omega
    · rw [Function.update_noteq hne]
      exact hb slot2

theorem idsWF_place (s : OMState) (symbol : String) (t : OrderType)
    (entry sl tp lot : ℚ) (g : Option String) (orig : Option ℕ) (regen : Bool)
    (hwf : idsWF s) :
    idsWF (place_new_order s symbol t entry sl tp lot g orig regen).2 := by
  unfold place_new_order
  split_ifs with h1 h2 h3 h4 h5 hr
  · exact hwf
  · exact hwf
  · exact hwf
  · exact hwf
  · exact hwf
  · constructor
    · dsimp only
      rw [List.map_append, List.map_singleton]
      rw [List.nodup_append]
      refine ⟨hwf.1, List.nodup_singleton _, ?_⟩
      intro a ha
      rcases List.mem_map.mp ha with ⟨b, hb, rfl⟩
      simp only [List.mem_singleton]
      exact fun he => absurd he (Nat.ne_of_lt (hwf.2 b hb))
    · intro o ho
      dsimp only at ho ⊢
      rcases List.mem_append.mp ho with hmem | hmem
      · exact Nat.lt_succ_of_lt (hwf.2 o hmem)
      · rw [List.mem_singleton] at hmem
        subst hmem
        exact Nat.lt_succ_self _
  · constructor
    · dsimp only
      rw [List.map_append, List.map_singleton]
      rw [List.nodup_append]
      refine ⟨hwf.1, List.nodup_singleton _, ?_⟩
      intro a ha
      rcases List.mem_map.mp ha with ⟨b, hb, rfl⟩
      simp only [List.mem_singleton]
      exact fun he => absurd he (Nat.ne_of_lt (hwf.2 b hb))
    · intro o ho
      dsimp only at ho ⊢
      rcases List.mem_append.mp ho with hmem | hmem
      · exact Nat.lt_succ_of_lt (hwf.2 o hmem)
      · rw [List.mem_singleton] at hmem
        subst hmem
        exact Nat.lt_succ_self _

theorem idsWF_fills (s : OMState) (m : MarketData) (hwf : idsWF s) :
    idsWF (check_pending_orders s m).1 := by
  constructor
  · show ((s.orders.map (applyFill m s.pendingOrders)).map (fun o => o.orderId)).Nodup
    rw [List.map_map]
    have : ((fun o : Order => o.orderId) ∘ applyFill m s.pendingOrders)
        = fun o : Order => o.orderId := by
      funext o
      exact applyFill_orderId m s.pendingOrders o
    rw [this]
    exact hwf.1
  · intro o ho
    rcases List.mem_map.mp ho with ⟨a, ha, rfl⟩
    show (applyFill m s.pendingOrders a).orderId < s.nextId
    rw [applyFill_orderId]
    exact hwf.2 a ha

theorem idsWF_closes (s : OMState) (m : MarketData) (hwf : idsWF s) :
    idsWF (check_active_positions s m).1 := by
  constructor
  · show ((s.orders.map (applyClose m s.activePositions)).map (fun o => o.orderId)).Nodup
    rw [List.map_map]
    have : ((fun o : Order => o.orderId) ∘ applyClose m s.activePositions)
        = fun o : Order => o.orderId := by
      funext o
      exact applyClose_orderId m s.activePositions o
    rw [this]
    exact hwf.1
  · intro o ho
    rcases List.mem_map.mp ho with ⟨a, ha, rfl⟩
    show (applyClose m s.activePositions a).orderId < s.nextId
    rw [applyClose_orderId]
    exact hwf.2 a ha

/-- The combined invariant carried along `ReachableGM`. -/
theorem reachableGM_inv {s : OMState} (h : ReachableGM s) :
    slotCountsBounded s ∧ idsWF s := by
  induction h with
  | init maxRegen =>
    exact ⟨fun _ => Nat.zero_le _, List.nodup_nil, fun o ho => absurd ho (by simp [OMState.init])⟩
  | place s symbol t entry sl tp lot g orig _ ih =>
    refine ⟨?_, idsWF_place s symbol t entry sl tp lot g orig false ih.2⟩
    intro slot
    rw [place_nonregen_counts, place_preserves_counts_max]
    exact ih.1 slot
  | fills s m _ ih =>
    exact ⟨ih.1, idsWF_fills s m ih.2⟩
  | closes s m _ ih =>
    exact ⟨ih.1, idsWF_closes s m ih.2⟩
  | regen s oid factor decimals rp lot _ hneeds hdet ih =>
    obtain ⟨o1, hf1, hst1, hlt1⟩ := needs_regeneration_spec hneeds
    obtain ⟨o2, hf2, hslot⟩ := get_details_slot hdet
    have ho12 : o1 = o2 := by
      have := hf1.symm.trans hf2
      exact Option.some_inj.mp this
    subst ho12
    refine ⟨?_, idsWF_place s rp.symbol rp.orderType rp.entry_price rp.sl_price rp.tp_price
      lot rp.grid_id (some rp.original_order_id_for_regen) true ih.2⟩
    exact slotCountsBounded_place_regen rp.symbol rp.orderType rp.entry_price rp.sl_price
      rp.tp_price lot rp.grid_id ih.1 (hslot ▸ hlt1)

/-- C3.  In every state the Grid Manager's orchestration can reach (grid
creation placements followed by market-data updates with regeneration),
every slot's regeneration counter is at most the configured maximum, and
`needs_regeneration` returns false exactly when the order is not
`STOPPED_OUT` or its slot's counter has reached that maximum. -/
theorem C3_regen_counter_bounded_and_needs_iff (s : OMState) (h : ReachableGM s) :
    (∀ slot, s.regenerationCounts slot ≤ s.maxRegenerationAttempts)
    ∧ ∀ o ∈ s.orders,
        (needs_regeneration s o.orderId = false
          ↔ (o.status ≠ OrderStatus.STOPPED_OUT
             ∨ s.regenerationCounts o.originalOrderId = s.maxRegenerationAttempts)) := by
  obtain ⟨hb, hwf⟩ := reachableGM_inv h
  refine ⟨hb, ?_⟩
  intro o hmem
  have hfind : findOrder s o.orderId = some o := findOrder_eq_of_mem hwf hmem
  unfold needs_regeneration
  rw [hfind]
  dsimp only
  split_ifs with h1 h2
  · simp only [eq_self_iff_true, true_iff]
    exact Or.inl h1
  · simp only [eq_self_iff_true, true_iff]
    exact Or.inr (le_antisymm (hb o.originalOrderId) h2)
  · simp only [Bool.true_eq_false, false_iff]
    rintro (hc | hc)
    · exact hc (not_ne_iff.mp h1)
    · exact h2 (le_of_eq hc.symm)

/-- Witness for C3: the state after one initial placement on a fresh
manager with maximum 3. -/
theorem C3_regen_counter_bounded_and_needs_iff_witness :
    (∀ slot, (place_new_order (OMState.init 3) "EURUSD" OrderType.BUY_LIMIT 2 1 3 1
        none none false).2.regenerationCounts slot
      ≤ (place_new_order (OMState.init 3) "EURUSD" OrderType.BUY_LIMIT 2 1 3 1
        none none false).2.maxRegenerationAttempts)
    ∧ ∀ o ∈ (place_new_order (OMState.init 3) "EURUSD" OrderType.BUY_LIMIT 2 1 3 1
        none none false).2.orders,
        (needs_regeneration (place_new_order (OMState.init 3) "EURUSD" OrderType.BUY_LIMIT
            2 1 3 1 none none false).2 o.orderId = false
          ↔ (o.status ≠ OrderStatus.STOPPED_OUT
             ∨ (place_new_order (OMState.init 3) "EURUSD" OrderType.BUY_LIMIT 2 1 3 1
                none none false).2.regenerationCounts o.originalOrderId
               = (place_new_order (OMState.init 3) "EURUSD" OrderType.BUY_LIMIT 2 1 3 1
                none none false).2.maxRegenerationAttempts)) :=
  C3_regen_counter_bounded_and_needs_iff _
    (ReachableGM.place (OMState.init 3) "EURUSD" OrderType.BUY_LIMIT 2 1 3 1 none none
      (ReachableGM.init 3))

/-- C6 (amended).  Every order held by the Order Manager satisfies the §3
directional SL/TP invariant in every state reachable through placement,
fill/close checks and cancellation.  (SL/TP modification is excluded: it
applies new values without re-validation, see the counterexample.) -/
theorem C6_invariant_preserved_without_modify (s : OMState) (h : ReachableOMCore s) :
    ∀ o ∈ s.orders, specConsistent o := by
  induction h with
  | init maxRegen =>
    intro o ho
    exact absurd ho (by simp [OMState.init])
  | place s symbol t entry sl tp lot g orig regen _ ih =>
    intro o ho
    unfold place_new_order at ho
    split_ifs at ho with h1 h2 h3 h4 h5 hr
    · exact ih o ho
    · exact ih o ho
    · exact ih o ho
    · exact ih o ho
    · exact ih o ho
    all_goals
      dsimp only at ho
      rcases List.mem_append.mp ho with hmem | hmem
      · exact ih o hmem
      · rw [List.mem_singleton] at hmem
        subst hmem
        refine ⟨?_, ?_⟩
        · intro hbp
          refine ⟨lt_of_not_le (fun hle => h2 ⟨hbp, hle⟩), ?_⟩
          by_cases h0 : tp = 0
          · exact Or.inl h0
          · exact Or.inr (lt_of_not_le (fun hle => h3 ⟨hbp, h0, hle⟩))
        · intro hsp
          refine ⟨lt_of_not_le (fun hle => h4 ⟨hsp, hle⟩), ?_⟩
          by_cases h0 : tp = 0
          · exact Or.inl h0
          · exact Or.inr (lt_of_not_le (fun hle => h5 ⟨hsp, h0, hle⟩))
  | fills s m _ ih =>
    intro o ho
    rcases List.mem_map.mp ho with ⟨a, ha, rfl⟩
    exact specConsistent_applyFill m s.pendingOrders a (ih a ha)
  | closes s m _ ih =>
    intro o ho
    rcases List.mem_map.mp ho with ⟨a, ha, rfl⟩
    exact specConsistent_applyClose m s.activePositions a (ih a ha)
  | cancel s oid _ ih =>
    intro o ho
    unfold cancel_order at ho
    cases hf : findOrder s oid with
    | none => rw [hf] at ho; exact ih o ho
    | some a =>
      rw [hf] at ho
      dsimp only at ho
      split_ifs at ho with hst
      · exact ih o ho
      · unfold updateOrder at ho
        rcases List.mem_map.mp ho with ⟨b, hb, rfl⟩
        split_ifs with hid
        · exact ih b hb
        · exact ih b hb

/-- Evaluating the valid buy-limit placement on a fresh manager. -/
theorem c6_place_eq :
    (place_new_order (OMState.init 3) "EURUSD" OrderType.BUY_LIMIT 2 1 3 1
      none none false).2 = c6State1 := by
  unfold place_new_order OMState.init c6State1
  rw [if_neg (by norm_num), if_neg (by norm_num), if_neg (by norm_num),
    if_neg (by simp [OrderType.isSellPending]), if_neg (by simp [OrderType.isSellPending])]
  rfl

/-- Witness for the amended C6 theorem: the order placed by a valid
buy-limit placement on a fresh manager satisfies the invariant. -/
theorem C6_invariant_preserved_without_modify_witness :
    specConsistent c6Order := by
  have hmem : c6Order ∈ (place_new_order (OMState.init 3) "EURUSD" OrderType.BUY_LIMIT
      2 1 3 1 none none false).2.orders := by
    rw [c6_place_eq]
    simp [c6State1]
  exact C6_invariant_preserved_without_modify _
    (ReachableOMCore.place (OMState.init 3) "EURUSD" OrderType.BUY_LIMIT 2 1 3 1 none none
      false (ReachableOMCore.init 3)) c6Order hmem

/-- Counterexample to C6 as stated: `modify_order_sl_tp` is one of the
Order Manager's operations, yet moving the SL of a pending buy-limit
above its entry is accepted without re-validation and leaves an order
violating the directional invariant in the table. -/
theorem C6_counterexample_modify_breaks_invariant :
    ∃ s, ReachableOM s ∧ ∃ o ∈ s.orders, ¬ specConsistent o := by
  refine ⟨(modify_order_sl_tp
      (place_new_order (OMState.init 3) "EURUSD" .BUY_LIMIT 2 1 3 1 none none false).2
      0 (some 5) none).2,
    ReachableOM.modify _ 0 (some 5) none
      (ReachableOM.place (OMState.init 3) "EURUSD" .BUY_LIMIT 2 1 3 1 none none false
        (ReachableOM.init 3)),
    ?_⟩
  rw [c6_place_eq]
  have hfind : findOrder c6State1 0 = some c6Order := by
    unfold findOrder c6State1
    simp [List.find?, c6Order]
  have hmod : (modify_order_sl_tp c6State1 0 (some 5) none).2 = c6State2 := by
    unfold modify_order_sl_tp
    rw [hfind]
    dsimp only
    rw [if_neg (by simp [c6Order])]
    unfold c6State1 c6State2 updateOrder c6BadOrder
    simp [c6Order]
  rw [hmod]
  refine ⟨c6BadOrder, by simp [c6State2], ?_⟩
  intro hc
  have := (hc.1 rfl).1
  norm_num [c6BadOrder, c6Order] at this

/-- C5.  A volatility-grid strategy that passed construction validation
with ATR ≤ 0 (necessarily ATR < 0: a zero ATR is rejected as falsy at
construction) generates an empty order sequence, with no error. -/
theorem C5_nonpositive_atr_generates_nothing (p : BaseTradeParams) (n : ℤ) (a : ℚ)
    (m : VolatilityGridModel) (lotFor : ℚ → ℚ → ℚ) (decimals : ℕ)
    (hmk : VolatilityGridModel.mk? p n a = some m) (hatr : p.atr ≤ 0) :
    volatilityGenerate m lotFor decimals = [] := by
  unfold VolatilityGridModel.mk? at hmk
  split_ifs at hmk with hv
  rw [Option.some_inj] at hmk
  subst hmk
  unfold volatilityGenerate
  rw [if_pos hatr]

/-- Witness for C5. -/
theorem C5_nonpositive_atr_generates_nothing_witness :
    VolatilityGridModel.mk? c5Params 3 1 = some c5Model
    ∧ volatilityGenerate c5Model (fun _ _ => 1/100) 5 = [] := by
  have hv : baseParamsValid c5Params = true := by
    unfold baseParamsValid c5Params lowerEq
    norm_num
    decide
  have hmk : VolatilityGridModel.mk? c5Params 3 1 = some c5Model := by
    unfold VolatilityGridModel.mk? c5Model
    rw [if_pos hv]
    norm_num [Int.toNat]
  exact ⟨hmk,
    C5_nonpositive_atr_generates_nothing c5Params 3 1 c5Model _ 5 hmk (by norm_num [c5Params])⟩

/-- C5 counterexample.  The static ladder strategy never reads ATR:
constructed from a base trade with the truthy negative ATR −1 (which
passes the construction validation), its `generate_grid_orders` still
returns a non-empty order list, refuting the claim quantified over every
grid strategy. -/
theorem C5_counterexample_static_ignores_atr :
    c5sParams.atr ≤ 0
    ∧ StaticGridModel.mk? c5sParams 1 true 1 = some c5Static
    ∧ staticGenerate c5Static (fun _ _ => 1/100) 5 ≠ [] := by
  have hv : baseParamsValid c5sParams = true := by
    unfold baseParamsValid c5sParams lowerEq
    norm_num
    decide
  have hlb : lowerEq "buy" "buy" = true := by decide
  refine ⟨by norm_num [c5sParams], ?_, ?_⟩
  · have hpos : ¬ ((lowerEq c5sParams.direction "buy"
          ∧ c5sParams.base_price ≤ c5sParams.base_sl)
        ∨ (lowerEq c5sParams.direction "sell"
          ∧ c5sParams.base_sl ≤ c5sParams.base_price)) := by
      rintro (⟨-, hle⟩ | ⟨hb, -⟩)
      · norm_num [c5sParams] at hle
      · have : lowerEq c5sParams.direction "sell" = false := by
          unfold c5sParams lowerEq
          decide
        rw [this] at hb
        exact absurd hb (by simp)
    unfold StaticGridModel.mk? c5Static
    rw [if_pos hv, if_neg hpos]
    norm_num [Int.toNat]
  · have hgen : staticGenerate c5Static (fun _ _ => 1/100) 5
        = [{ symbol := "EURUSD", order_type := .BUY_LIMIT, entry_price := 21/20,
             sl := 1, tp := 2, lot_size := 1/100,
             grid_id := "SG_EURUSD_BT_1" }] := by
      have habs : |(1 : ℚ)/10| = 1/10 := abs_of_nonneg (by norm_num)
      have hr : List.range 1 = [0] := rfl
      norm_num [staticGenerate, staticLevel, c5Static, c5sParams, roundPy, roundHalfEven,
        hlb, habs, hr, dedupOrders, dedupLoop, orderKey, List.flatMap_cons,
        List.flatMap_nil]
      decide
    rw [hgen]
    simp

/-! ### C9: the de-duplication pass and its absence in the pyramid model -/
theorem dedupLoop_nodup (l : List OrderSpec) (seen : List (OrderType × ℚ)) :
    ((dedupLoop l seen).map orderKey).Nodup
    ∧ ∀ k ∈ (dedupLoop l seen).map orderKey, k ∉ seen := by
  induction l generalizing seen with
  | nil => simp [dedupLoop]
  | cons o rest ih =>
    by_cases hm : orderKey o ∈ seen
    · simp only [dedupLoop, if_pos hm]
      exact ih seen
    · simp only [dedupLoop, if_neg hm, List.map_cons, List.nodup_cons]
      obtain ⟨h1, h2⟩ := ih (orderKey o :: seen)
      refine ⟨⟨?_, h1⟩, ?_⟩
      · intro hk
        exact (h2 _ hk) (List.mem_cons_self _ _)
      · intro k hk
        rcases List.mem_cons.mp hk with rfl | hk2
        · exact hm
        · intro hks
          exact (h2 k hk2) (List.mem_cons_of_mem _ hks)

theorem dedupOrders_nodup (l : List OrderSpec) :
    ((dedupOrders l).map orderKey).Nodup :=
  (dedupLoop_nodup l []).1

theorem dedupLoop_find (l : List OrderSpec) (seen : List (OrderType × ℚ))
    (k : OrderType × ℚ) (hk : k ∉ seen) :
    (dedupLoop l seen).find? (fun o => orderKey o == k)
      = l.find? (fun o => orderKey o == k) := by
  induction l generalizing seen with
  | nil => simp [dedupLoop]
  | cons o rest ih =>
    by_cases hm : orderKey o ∈ seen
    · have hne : (orderKey o == k) = false := by
        rw [beq_eq_false_iff_ne]
        rintro rfl
        exact hk hm
      simp only [dedupLoop, if_pos hm]
      rw [List.find?_cons_of_neg _ (by simp [hne])]
      exact ih seen hk
    · simp only [dedupLoop, if_neg hm]
      by_cases he : (orderKey o == k) = true
      · rw [List.find?_cons_of_pos _ (by simp [he]), List.find?_cons_of_pos _ (by simp [he])]
      · rw [List.find?_cons_of_neg _ (by simp [he]), List.find?_cons_of_neg _ (by simp [he])]
        refine ih (orderKey o :: seen) ?_
        intro hmem
        rcases List.mem_cons.mp hmem with rfl | h2
        · exact he (by simp)
        · exact hk h2

theorem dedupOrders_find (l : List OrderSpec) (k : OrderType × ℚ) :
    (dedupOrders l).find? (fun o => orderKey o == k)
      = l.find? (fun o => orderKey o == k) :=
  dedupLoop_find l [] k (by simp)

/-- C9 (amended).  The volatility and static models (representative of
the models carrying the `unique_orders` pass) never return two specs with
the same (order kind, entry price) pair, and the de-duplication pass
keeps exactly the first occurrence of each key; the pyramid model has no
such pass and can return duplicates (see the counterexample). -/
theorem C9_dedup_for_dedup_models (mv : VolatilityGridModel) (ms : StaticGridModel)
    (lotForV lotForS : ℚ → ℚ → ℚ) (decimalsV decimalsS : ℕ) :
    ((volatilityGenerate mv lotForV decimalsV).map orderKey).Nodup
    ∧ ((staticGenerate ms lotForS decimalsS).map orderKey).Nodup
    ∧ ∀ (l : List OrderSpec) (k : OrderType × ℚ),
        (dedupOrders l).find? (fun o => orderKey o == k)
          = l.find? (fun o => orderKey o == k) := by
  refine ⟨?_, ?_, dedupOrders_find⟩
  · unfold volatilityGenerate
    split_ifs with h1
    · simp
    · dsimp only
      split_ifs with h2
      · simp
      · exact dedupOrders_nodup _
  · unfold staticGenerate
    dsimp only
    split_ifs with h1 h2
    · simp
    · simp
    · exact dedupOrders_nodup _

/-- Counterexample to C9 as stated: the pyramid model, constructed from a
valid base trade, returns two `BUY_STOP` specs at the same entry price —
`generate_grid_orders` in `pyramid_grid.py` has no de-duplication pass. -/
theorem C9_counterexample_pyramid_duplicates :
    PyramidGridModel.mk? c9Params 2 1 false 2 2 = some c9Pyramid
    ∧ ¬ ((pyramidGenerate c9Pyramid (fun _ _ => 1/100) 2).map orderKey).Nodup := by
  constructor
  · have hv : baseParamsValid c9Params = true := by
      unfold baseParamsValid c9Params lowerEq
      norm_num
      decide
    unfold PyramidGridModel.mk? c9Pyramid
    rw [if_pos hv]
    norm_num [Int.toNat]
  · have hlb : lowerEq "buy" "buy" = true := by decide
    have hgen : (pyramidGenerate c9Pyramid (fun _ _ => 1/100) 2).map orderKey
        = [(OrderType.BUY_STOP, 100), (OrderType.BUY_STOP, 100)] := by
      norm_num [pyramidGenerate, pyramidLoop, c9Pyramid, c9Params, roundPy, roundHalfEven,
        hlb, orderKey]
    rw [hgen]
    simp

/-! ### C8: the strong-trend rule of the decision tree -/
/-- C8.  When the router is not in the ranging branch, neither structure
rule fires, the trend evaluation of the latest row is UP or DOWN, and its
ADX exceeds the trend threshold by more than 5, `select_grid_model`
returns the volatility model exactly when the volatility signal is HIGH
and the pyramid model otherwise. -/
theorem C8_strong_trend_selects_pyramid_or_volatility (adx_trend_threshold : ℚ)
    (vol : Option VolSignal) (row : TrendRow) (is_ranging : Option Bool)
    (near_sh near_sl : Option ℚ) (direction : String)
    (h_nr : truthyOptB is_ranging = false)
    (h_sh : ¬ (truthyOptQ near_sh = true ∧ lowerEq direction "sell" = true))
    (h_sl : ¬ (truthyOptQ near_sl = true ∧ lowerEq direction "buy" = true))
    (h_dir : evaluate_trend adx_trend_threshold row = .UP
      ∨ evaluate_trend adx_trend_threshold row = .DOWN)
    (h_adx : adx_trend_threshold + 5 < row.adx) :
    select_grid_model adx_trend_threshold vol (some row) is_ranging near_sh near_sl direction
      = (if vol = some VolSignal.HIGH then GridModelName.VolatilityGrid
         else GridModelName.PyramidGrid) := by
  unfold select_grid_model select_from_signals
  dsimp only
  rw [if_neg (by simp [h_nr]), if_neg h_sh, if_neg h_sl, if_pos]
  refine ⟨?_, ?_⟩
  · rcases h_dir with h | h
    · exact Or.inl (by rw [h])
    · exact Or.inr (by rw [h])
  · show adxAbove adx_trend_threshold (some row.adx) = true
    unfold adxAbove
    exact decide_eq_true h_adx

/-- Witness for C8: the spec's example — ADX 35 against threshold 25,
short EMA above long EMA, +DI above −DI, NORMAL volatility, no ranging or
structure signal — selects the Pyramid model. -/
theorem C8_strong_trend_selects_pyramid_or_volatility_witness :
    select_grid_model 25 (some VolSignal.NORMAL)
      (some { ema_short := 2, ema_long := 1, adx := 35, plus_di := 30, minus_di := 15,
              prev_ema_short := none })
      none none none "buy" = GridModelName.PyramidGrid := by
  have h := C8_strong_trend_selects_pyramid_or_volatility 25 (some VolSignal.NORMAL)
    { ema_short := 2, ema_long := 1, adx := 35, plus_di := 30, minus_di := 15,
      prev_ema_short := none }
    none none none "buy" rfl (by simp [truthyOptQ]) (by simp [truthyOptQ])
    (Or.inl (by norm_num [evaluate_trend]; decide)) (by norm_num)
  simpa using h

end GridTrader

